import Mathlib

/-!
Verification development for the `ewoc_dataship` repository.

The Python sources are shallowly embedded: Python `str` values are modelled
as `List Char` (so that every operation is structurally recursive and
kernel-computable), fallible code returns `Except PyErr`, and filesystem or
object-store state is passed explicitly.  Each definition mirrors one Python
function of the repository and is named after it.
-/

set_option autoImplicit false

deriving instance DecidableEq for Except

namespace EwocDag

/-- Kinds of Python exceptions that the embedded code can raise.  `valueError`
carries the message; `eoBucketExc` models `EOBucketException` and carries the
product prefix, the raw listing response (its `Contents` field and
continuation token) and the bucket name, exactly the three values stored by
`EOBucketException.__init__`; `awsDownloadError` models `AWSDownloadError`
wrapping an inner exception; `s1SafeConversionError` models
`S1SafeConversionError`. -/
inductive PyErr where
  | valueError (msg : List Char)
  | indexError
  | nameError
  | fileNotFoundError (p : List (List Char))
  | fileExistsError (p : List (List Char))
  | dirNotEmptyError (p : List (List Char))
  | s1SafeConversionError (msg : List Char)
  | eoBucketExc (prdPfx : List Char) (contents : Option (List (List Char)))
      (nextToken : Option (List Char)) (bucket : List Char)
  | uploadProductError
  | awsDownloadError (inner : PyErr)
  deriving DecidableEq, Repr

/-- Python `str.split(sep)` for a one-character separator: splits at every
occurrence, keeping empty pieces, and returns `[[]]` on the empty string. -/
def splitCh (sep : Char) : List Char → List (List Char)
  | [] => [[]]
  | c :: cs =>
    match splitCh sep cs with
    | [] => if c = sep then [[], []] else [[c]]
    | h :: t => if c = sep then [] :: h :: t else (c :: h) :: t

/-- Join a list of pieces with a one-character separator, the model of
Python `sep.join(pieces)`. -/
def joinCh (sep : Char) : List (List Char) → List Char
  | [] => []
  | [p] => p
  | p :: ps => p ++ sep :: joinCh sep ps

/-- Python substring test `pat in hay` on strings. -/
def containsSub (hay pat : List Char) : Bool :=
  match hay with
  | [] => pat.isEmpty
  | _ :: t => pat.isPrefixOf hay || containsSub t pat

/-- Decimal digits of a natural number, the model of Python `str(n)` for a
non-negative `int` (no zero padding). -/
def natDigits (n : Nat) : List Char :=
  Nat.toDigits 10 n

/-- Python `int(s)` restricted to an optional sign followed by decimal
digits; returns `none` when `s` is not such a literal (where Python raises
`ValueError`).  Underscore separators and surrounding whitespace, which
Python would also accept, are not modelled. -/
def pyInt (s : List Char) : Option Int :=
  let digitsVal : List Char → Option Nat := fun ds =>
    if ds.isEmpty then none
    else if ds.all Char.isDigit then
      some (ds.foldl (fun acc c => acc * 10 + (c.toNat - 48)) 0)
    else none
  match s with
  | '-' :: ds => (digitsVal ds).map (fun n => -(n : Int))
  | '+' :: ds => (digitsVal ds).map (fun n => (n : Int))
  | ds => (digitsVal ds).map (fun n => (n : Int))

/-- Numeric value of a decimal digit character. -/
def digitVal (c : Char) : Nat := c.toNat - 48

/-! ### Model of `datetime.strptime(value, '%Y%m%dT%H%M%S')`

CPython compiles each format directive to a regex alternation and commits to
the first full match in alternation order (with backtracking), then validates
the calendar date via the `datetime` constructor.  The alternations are:
`%Y = \d{4}`, `%m = 1[0-2]|0[1-9]|[1-9]`, `%d = 3[01]|[12]\d|0[1-9]|[1-9]`,
`%H = 2[0-3]|[0-1]\d|\d`, `%M = %S = [0-5]\d|\d`.  We enumerate candidate
matches for each directive in alternation order and take the first
combination that consumes the whole string. -/

/-- Ordered candidates for the `%m` directive (`1[0-2]|0[1-9]|[1-9]`). -/
def monthCands : List Char → List (Nat × List Char)
  | c1 :: c2 :: rest =>
    (if c1 = '1' ∧ c2.isDigit ∧ c2 ≤ '2' then [(10 + digitVal c2, rest)] else []) ++
    (if c1 = '0' ∧ '1' ≤ c2 ∧ c2 ≤ '9' then [(digitVal c2, rest)] else []) ++
    (if '1' ≤ c1 ∧ c1 ≤ '9' then [(digitVal c1, c2 :: rest)] else [])
  | [c1] => if '1' ≤ c1 ∧ c1 ≤ '9' then [(digitVal c1, [])] else []
  | [] => []

/-- Ordered candidates for the `%d` directive (`3[01]|[12]\d|0[1-9]|[1-9]`). -/
def dayCands : List Char → List (Nat × List Char)
  | c1 :: c2 :: rest =>
    (if c1 = '3' ∧ c2.isDigit ∧ c2 ≤ '1' then [(30 + digitVal c2, rest)] else []) ++
    (if ('1' ≤ c1 ∧ c1 ≤ '2') ∧ c2.isDigit then [(digitVal c1 * 10 + digitVal c2, rest)] else []) ++
    (if c1 = '0' ∧ '1' ≤ c2 ∧ c2 ≤ '9' then [(digitVal c2, rest)] else []) ++
    (if '1' ≤ c1 ∧ c1 ≤ '9' then [(digitVal c1, c2 :: rest)] else [])
  | [c1] => if '1' ≤ c1 ∧ c1 ≤ '9' then [(digitVal c1, [])] else []
  | [] => []

/-- Ordered candidates for the `%H` directive (`2[0-3]|[0-1]\d|\d`). -/
def hourCands : List Char → List (Nat × List Char)
  | c1 :: c2 :: rest =>
    (if c1 = '2' ∧ c2.isDigit ∧ c2 ≤ '3' then [(20 + digitVal c2, rest)] else []) ++
    (if (c1 = '0' ∨ c1 = '1') ∧ c2.isDigit then [(digitVal c1 * 10 + digitVal c2, rest)] else []) ++
    (if c1.isDigit then [(digitVal c1, c2 :: rest)] else [])
  | [c1] => if c1.isDigit then [(digitVal c1, [])] else []
  | [] => []

/-- Ordered candidates for the `%M` and `%S` directives (`[0-5]\d|\d`). -/
def minSecCands : List Char → List (Nat × List Char)
  | c1 :: c2 :: rest =>
    (if (c1.isDigit ∧ c1 ≤ '5') ∧ c2.isDigit then [(digitVal c1 * 10 + digitVal c2, rest)] else []) ++
    (if c1.isDigit then [(digitVal c1, c2 :: rest)] else [])
  | [c1] => if c1.isDigit then [(digitVal c1, [])] else []
  | [] => []

/-- The `%Y` directive: exactly four decimal digits. -/
def year4 : List Char → Option (Nat × List Char)
  | a :: b :: c :: d :: rest =>
    if a.isDigit ∧ b.isDigit ∧ c.isDigit ∧ d.isDigit then
      some (digitVal a * 1000 + digitVal b * 100 + digitVal c * 10 + digitVal d, rest)
    else none
  | _ => none

/-- A parsed `datetime` value (only the fields the repository uses). -/
structure PyDateTime where
  year : Nat
  month : Nat
  day : Nat
  hour : Nat
  minute : Nat
  second : Nat
  deriving DecidableEq, Repr

/-- Number of days in a month, with Gregorian leap years, as validated by the
`datetime` constructor. -/
def daysInMonth (y m : Nat) : Nat :=
  if m = 2 then
    if y % 4 = 0 ∧ (y % 100 ≠ 0 ∨ y % 400 = 0) then 29 else 28
  else if m = 4 ∨ m = 6 ∨ m = 9 ∨ m = 11 then 30
  else 31

/-- First full regex match of `%Y%m%dT%H%M%S` against `cs`, in alternation
order with backtracking. -/
def matchS1Fmt (cs : List Char) : Option (Nat × Nat × Nat × Nat × Nat × Nat) :=
  (year4 cs).bind fun yr =>
    (monthCands yr.2).findSome? fun mr =>
      (dayCands mr.2).findSome? fun dr =>
        match dr.2 with
        | 'T' :: r4 =>
          (hourCands r4).findSome? fun hr =>
            (minSecCands hr.2).findSome? fun mir =>
              (minSecCands mir.2).findSome? fun sr =>
                if sr.2 = [] then some (yr.1, mr.1, dr.1, hr.1, mir.1, sr.1) else none
        | _ => none

/-- Model of `datetime.strptime(value, '%Y%m%dT%H%M%S')`: regex match first,
then calendar validation by the `datetime` constructor (`1 <= year`,
`day <= daysInMonth`); `none` where Python raises `ValueError`. -/
def strptimeS1Fmt (cs : List Char) : Option PyDateTime :=
  (matchS1Fmt cs).bind fun (y, m, d, hh, mi, ss) =>
    if 1 ≤ y ∧ d ≤ daysInMonth y m then
      some ⟨y, m, d, hh, mi, ss⟩
    else none

/-! ### `ewoc_dag/eo_prd_id/s1_prd_id.py` — `S1PrdIdInfo` -/

/-- Enum check shared by the property setters: Python
`if value in allowed_values: ... else: raise ValueError(...)`. -/
def pyCheckEnum (v : List Char) (allowed : List (List Char)) (msg : List Char) :
    Except PyErr (List Char) :=
  if allowed.contains v then .ok v else .error (.valueError msg)

/-- Python string indexing `s[i]`: `IndexError` when out of range. -/
def pyIndex (s : List Char) (i : Nat) : Except PyErr Char :=
  match s.get? i with
  | some c => .ok c
  | none => .error .indexError

/-- Length check used by the setters that only test `len(value) == n`. -/
def pyCheckLen (v : List Char) (n : Nat) (msg : List Char) : Except PyErr (List Char) :=
  if v.length = n then .ok v else .error (.valueError msg)

/-- `datetime.strptime(value, '%Y%m%dT%H%M%S')` as `Except`: `ValueError`
on mismatch. -/
def pyStrptime (v : List Char) : Except PyErr PyDateTime :=
  match strptimeS1Fmt v with
  | some d => .ok d
  | none => .error (.valueError ("time data does not match format".toList))

/-- The typed descriptor built by `S1PrdIdInfo.__init__`. -/
structure S1PrdIdInfo where
  s1PrdId : List Char
  missionId : List Char
  beamMode : List Char
  productType : List Char
  resolutionClass : List Char
  processingLevel : List Char
  productClass : List Char
  polarisation : List Char
  startTime : PyDateTime
  stopTime : PyDateTime
  absoluteOrbitNumber : List Char
  missionDatatakeId : List Char
  productUniqueId : List Char
  deriving DecidableEq, Repr

/-- Token list of an S1 product id: strip at the first dot
(`s1_prd_id.split('.')[0]`), then split on underscores. -/
def s1Tokens (s : List Char) : List (List Char) :=
  splitCh '_' ((splitCh '.' s).headD [])

/-- The body of `S1PrdIdInfo.__init__` on an already-split token list:
requires exactly 9 underscore tokens, then runs the property setters in
source order.  Setter failures are `ValueError`; the positional extractions
`elt_prd_id[2][3]`, `elt_prd_id[3][0]` and `elt_prd_id[3][1]` raise
`IndexError` on too-short tokens. -/
def s1Ctor (wsafe : List Char) (ts : List (List Char)) : Except PyErr S1PrdIdInfo :=
  match ts with
  | [t0, t1, t2, t3, t4, t5, t6, t7, t8] =>
    match pyCheckEnum t0 [("S1A".toList), ("S1B".toList)] ("Mission ID".toList) with
    | .error e => .error e
    | .ok mission =>
    match pyCheckEnum t1 [("SM".toList), ("IW".toList), ("EW".toList), ("WV".toList)]
        ("Beam mode".toList) with
    | .error e => .error e
    | .ok beam =>
    match pyCheckEnum (t2.take 3) [("SLC".toList), ("GRD".toList), ("OCN".toList)]
        ("Product type".toList) with
    | .error e => .error e
    | .ok ptype =>
    match pyIndex t2 3 with
    | .error e => .error e
    | .ok resChar =>
    match pyCheckEnum [resChar] [("F".toList), ("H".toList), ("M".toList)]
        ("Resolution class".toList) with
    | .error e => .error e
    | .ok res =>
    match pyIndex t3 0 with
    | .error e => .error e
    | .ok plChar =>
    match pyCheckEnum [plChar] [("1".toList), ("2".toList)] ("Processing Level".toList) with
    | .error e => .error e
    | .ok plevel =>
    match pyIndex t3 1 with
    | .error e => .error e
    | .ok pcChar =>
    match pyCheckEnum [pcChar] [("S".toList), ("A".toList)] ("Product Class".toList) with
    | .error e => .error e
    | .ok pclass =>
    match pyCheckEnum (t3.drop 2)
        [("SH".toList), ("SV".toList), ("DH".toList), ("DV".toList)]
        ("Polarisation".toList) with
    | .error e => .error e
    | .ok pol =>
    match pyStrptime t4 with
    | .error e => .error e
    | .ok start =>
    match pyStrptime t5 with
    | .error e => .error e
    | .ok stop =>
    match pyCheckLen t6 6 ("Absolute orbit number".toList) with
    | .error e => .error e
    | .ok orbit =>
    match pyCheckLen t7 6 ("Mission datatake id".toList) with
    | .error e => .error e
    | .ok datatake =>
    match pyCheckLen t8 4 ("Product unique id".toList) with
    | .error e => .error e
    | .ok uid =>
      .ok ⟨wsafe, mission, beam, ptype, res, plevel, pclass, pol, start, stop,
        orbit, datatake, uid⟩
  | _ =>
    .error (.valueError
      ("Sentinel 1 product id not provides the 9 keys values requested!".toList))

/-- `S1PrdIdInfo.__init__`: strip at the first dot, split on underscores,
run the setters. -/
def parseS1 (s : List Char) : Except PyErr S1PrdIdInfo :=
  let wsafe := (splitCh '.' s).headD []
  s1Ctor wsafe (splitCh '_' wsafe)

/-- `S1PrdIdInfo.is_valid`: attempts construction, returns `False` only on
`ValueError`; any other exception propagates. -/
def s1IsValid (s : List Char) : Except PyErr Bool :=
  match parseS1 s with
  | .ok _ => .ok true
  | .error (.valueError _) => .ok false
  | .error e => .error e

/-- Mission id enum check of the S1 grammar, on the raw token. -/
def s1MissionOk (t : List Char) : Bool :=
  [("S1A".toList), ("S1B".toList)].contains t

/-- Beam mode enum check of the S1 grammar, on the raw token. -/
def s1BeamOk (t : List Char) : Bool :=
  [("SM".toList), ("IW".toList), ("EW".toList), ("WV".toList)].contains t

/-- Product type enum check of the S1 grammar, on `token[:3]`. -/
def s1PTypeOk (t : List Char) : Bool :=
  [("SLC".toList), ("GRD".toList), ("OCN".toList)].contains (t.take 3)

/-- Resolution class enum check of the S1 grammar, on `token[3]`. -/
def s1ResOk (t : List Char) : Bool :=
  match t.get? 3 with
  | some c => [("F".toList), ("H".toList), ("M".toList)].contains [c]
  | none => false

/-- Processing level enum check of the S1 grammar, on `token[0]`. -/
def s1PLevelOk (t : List Char) : Bool :=
  match t.get? 0 with
  | some c => [("1".toList), ("2".toList)].contains [c]
  | none => false

/-- Product class enum check of the S1 grammar, on `token[1]`. -/
def s1PClassOk (t : List Char) : Bool :=
  match t.get? 1 with
  | some c => [("S".toList), ("A".toList)].contains [c]
  | none => false

/-- Polarisation enum check of the S1 grammar, on `token[2:]`. -/
def s1PolOk (t : List Char) : Bool :=
  [("SH".toList), ("SV".toList), ("DH".toList), ("DV".toList)].contains (t.drop 2)

/-- Date check of the S1 grammar: the token parses under
`%Y%m%dT%H%M%S`. -/
def s1DateOk (t : List Char) : Bool :=
  (strptimeS1Fmt t).isSome

/-- The positional extractions of `S1PrdIdInfo.__init__` stay in range:
`elt_prd_id[2]` has a fourth character and `elt_prd_id[3]` a second one. -/
def s1ExtractOk (ts : List (List Char)) : Prop :=
  4 ≤ (ts.getD 2 []).length ∧ 2 ≤ (ts.getD 3 []).length

instance (ts : List (List Char)) : Decidable (s1ExtractOk ts) := by
  unfold s1ExtractOk; infer_instance

/-- Conjunction of every enum/length/date field check of the S1 grammar on a
token list (positions as in the product id). -/
def s1AllChecks (ts : List (List Char)) : Bool :=
  s1MissionOk (ts.getD 0 []) && s1BeamOk (ts.getD 1 []) &&
  s1PTypeOk (ts.getD 2 []) && s1ResOk (ts.getD 2 []) &&
  s1PLevelOk (ts.getD 3 []) && s1PClassOk (ts.getD 3 []) && s1PolOk (ts.getD 3 []) &&
  s1DateOk (ts.getD 4 []) && s1DateOk (ts.getD 5 []) &&
  ((ts.getD 6 []).length == 6) && ((ts.getD 7 []).length == 6) &&
  ((ts.getD 8 []).length == 4)

/-! ### `dataship/eo_prd_id/s2_prd_id.py` — `S2PrdIdInfo` -/

/-- The typed descriptor built by `S2PrdIdInfo.__init__`. -/
structure S2PrdIdInfo where
  s2PrdId : List Char
  missionId : List Char
  productLevel : List Char
  datatakeSensingStartTime : PyDateTime
  pdgsProcessingBaselineNumber : List Char
  relativeOrbitNumber : List Char
  tileId : List Char
  productDiscriminator : List Char
  deriving DecidableEq, Repr

/-- Token list of an S2 product id: strip at the first dot, split on
underscores. -/
def s2Tokens (s : List Char) : List (List Char) :=
  splitCh '_' ((splitCh '.' s).headD [])

/-- The `relative_orbit_number` setter: `len(value) == 3`, then
`1 <= int(value) <= 143`; both `int()` and the range check raise
`ValueError`. -/
def s2CheckOrbit (v : List Char) : Except PyErr (List Char) :=
  if v.length = 3 then
    match pyInt v with
    | some n =>
      if 1 ≤ n ∧ n ≤ 143 then .ok v
      else .error (.valueError ("Relative orbit number is not possible".toList))
    | none => .error (.valueError ("invalid literal for int".toList))
  else .error (.valueError ("Length of relative orbit number different than 3".toList))

/-- The body of `S2PrdIdInfo.__init__` on an already-split token list:
requires exactly 7 underscore tokens, then runs the property setters in
source order.  Note `tile_id` is the slice `elt_prd_id[5][1:6]` (at most
five characters) checked for length 5, and
`pdgs_processing_baseline_number` (`elt_prd_id[3][1:5]`) is unchecked. -/
def s2Ctor (wsafe : List Char) (ts : List (List Char)) : Except PyErr S2PrdIdInfo :=
  match ts with
  | [t0, t1, t2, t3, t4, t5, t6] =>
    match pyCheckEnum t0 [("S2A".toList), ("S2B".toList)] ("Mission ID".toList) with
    | .error e => .error e
    | .ok mission =>
    match pyCheckEnum (t1.drop 3) [("L1C".toList), ("L2A".toList)]
        ("Product level".toList) with
    | .error e => .error e
    | .ok plevel =>
    match pyStrptime t2 with
    | .error e => .error e
    | .ok dt =>
    match s2CheckOrbit ((t4.drop 1).take 3) with
    | .error e => .error e
    | .ok orbit =>
    match pyCheckLen ((t5.drop 1).take 5) 5
        ("Length of tile id different than 5 is not possible!".toList) with
    | .error e => .error e
    | .ok tile =>
    match pyCheckLen t6 15
        ("Length of product discriminator different than 15 is not possible!".toList) with
    | .error e => .error e
    | .ok disc =>
      .ok ⟨wsafe, mission, plevel, dt, (t3.drop 1).take 4, orbit, tile, disc⟩
  | _ =>
    .error (.valueError
      ("Sentinel 2 product id not provides the 7 keys values requested!".toList))

/-- `S2PrdIdInfo.__init__`: strip at the first dot, split on underscores,
run the setters. -/
def parseS2 (s : List Char) : Except PyErr S2PrdIdInfo :=
  let wsafe := (splitCh '.' s).headD []
  s2Ctor wsafe (splitCh '_' wsafe)

/-- `S2PrdIdInfo.is_valid`: attempts construction, returns `False` only on
`ValueError`. -/
def s2IsValid (s : List Char) : Except PyErr Bool :=
  match parseS2 s with
  | .ok _ => .ok true
  | .error (.valueError _) => .ok false
  | .error e => .error e

/-- Mission id enum check of the S2 grammar, on the raw token. -/
def s2MissionOk (t : List Char) : Bool :=
  [("S2A".toList), ("S2B".toList)].contains t

/-- Product level enum check of the S2 grammar, on `token[3:]`. -/
def s2LevelOk (t : List Char) : Bool :=
  [("L1C".toList), ("L2A".toList)].contains (t.drop 3)

/-- Relative orbit check of the S2 grammar, on `token[1:4]`. -/
def s2OrbitOk (t : List Char) : Bool :=
  (s2CheckOrbit ((t.drop 1).take 3)).isOk

/-- Product discriminator length check of the S2 grammar, on the raw
token. -/
def s2DiscOk (t : List Char) : Bool :=
  t.length == 15

/-! ### `ewoc_dag/bucket/aws.py` — `AWSS1Bucket.download_prd` key prefix -/

/-- The S1 key prefix computed by `AWSS1Bucket.download_prd` (lines 102-115):
`'/'.join([product_type, str(year), str(month), str(day), beam_mode,
polarisation, prd_id.split('.')[0]]) + '/'` — `str` renders month and day
without zero padding. -/
def awsS1PrdPfx (prdId : List Char) : Except PyErr (List Char) := do
  let info ← parseS1 prdId
  .ok (joinCh '/'
    [info.productType,
     natDigits info.startTime.year,
     natDigits info.startTime.month,
     natDigits info.startTime.day,
     info.beamMode,
     info.polarisation,
     (splitCh '.' prdId).headD []] ++ [('/')])

/-! ### `ewoc_dag/bucket/eobucket.py` — `EOBucket._download_prd`

The paginated listing is modelled as the list of responses the store returns:
each `S3Page` carries the optional `Contents` field (as the list of object
keys; the objects are assumed to carry their `Key`) and the optional
`NextContinuationToken`.  The local filesystem is modelled as the list of
file paths that exist; a completed download adds the destination path.
Directory creation (`mkdir(parents=True, exist_ok=True)`) only affects
directories and is not tracked here, and the requester-pays flag only adds
request arguments without changing the control flow, so it is not modelled
either. -/

/-- One `list_objects_v2` response. -/
structure S3Page where
  contents : Option (List (List Char))
  nextToken : Option (List Char)
  deriving DecidableEq, Repr

/-- Item filter of `_download_prd`: `is_selected = prd_items is None`, set to
`True` when any filter term occurs in the key. -/
def objSelected (prdItems : Option (List (List Char))) (key : List Char) : Bool :=
  match prdItems with
  | none => true
  | some items => items.any (fun term => containsSub key term)

/-- Destination filename of `_download_prd`:
`obj['Key'].split(sep='/', maxsplit=len(prd_prefix.split('/')) - 1)[-1]`.
Python's bounded split leaves everything after the `maxsplit`-th separator in
the final piece, so the last element joins the remaining components. -/
def dlFilename (prdPfx key : List Char) : List Char :=
  let maxsplit := (splitCh '/' prdPfx).length - 1
  let parts := splitCh '/' key
  joinCh '/' (parts.drop (min maxsplit (parts.length - 1)))

/-- Destination path of a listed key: `out_dirpath / filename`. -/
def dlDest (outDir prdPfx key : List Char) : List Char :=
  outDir ++ '/' :: dlFilename prdPfx key

/-- Whether `_download_prd` transfers a listed key given the current local
filesystem: the key is selected, is not a pseudo-directory marker
(`endswith('/')`), and the destination does not exist yet. -/
def dlWanted (prdItems : Option (List (List Char))) (outDir prdPfx : List Char)
    (fs : List (List Char)) (key : List Char) : Bool :=
  objSelected prdItems key && !(('/' :: []).isSuffixOf key) &&
    !(decide (dlDest outDir prdPfx key ∈ fs))

/-- The per-page body of `_download_prd`: iterate over the page's keys,
downloading (adding the destination) each wanted one.  Returns the updated
local filesystem and the keys actually transferred, in order. -/
def dlProcessKeys (prdItems : Option (List (List Char))) (outDir prdPfx : List Char) :
    List (List Char) → List (List Char) → List (List Char) × List (List Char)
  | [], fs => (fs, [])
  | k :: ks, fs =>
    if dlWanted prdItems outDir prdPfx fs k then
      let r := dlProcessKeys prdItems outDir prdPfx ks (dlDest outDir prdPfx k :: fs)
      (r.1, k :: r.2)
    else
      dlProcessKeys prdItems outDir prdPfx ks fs

/-- `EOBucket._download_prd`: loop over listing responses; a response without
`Contents` raises `EOBucketException(prd_prefix, response, bucket_name)`
(the `KeyError` handler); the loop ends when a response has no
`NextContinuationToken`.  Returns the local filesystem and, on success, the
transferred keys. -/
def downloadPrd (bucket prdPfx : List Char) (prdItems : Option (List (List Char)))
    (outDir : List Char) :
    List S3Page → List (List Char) → List (List Char) × Except PyErr (List (List Char))
  | [], fs => (fs, .ok [])
  | p :: rest, fs =>
    match p.contents with
    | none => (fs, .error (.eoBucketExc prdPfx p.contents p.nextToken bucket))
    | some keys =>
      let r := dlProcessKeys prdItems outDir prdPfx keys fs
      match p.nextToken with
      | none => (r.1, .ok r.2)
      | some _ =>
        let rec' := downloadPrd bucket prdPfx prdItems outDir rest r.1
        (rec'.1, rec'.2.map (fun dls => r.2 ++ dls))

/-- A chained page list: every response before the last carries a
continuation token, so the loop reaches every page. -/
def pagesChained : List S3Page → Prop
  | [] => True
  | [_] => True
  | p :: q :: rest => p.nextToken.isSome ∧ pagesChained (q :: rest)

instance instDecPagesChained : (ps : List S3Page) → Decidable (pagesChained ps)
  | [] => by unfold pagesChained; infer_instance
  | [_] => by unfold pagesChained; infer_instance
  | _ :: q :: rest => by
    unfold pagesChained
    haveI := instDecPagesChained (q :: rest)
    infer_instance

/-- All keys listed across the pages of one `_download_prd` call. -/
def pagesKeys (ps : List S3Page) : List (List Char) :=
  ps.foldr (fun p acc => (p.contents.getD []) ++ acc) []

/-! ### `ewoc_dag/bucket/eobucket.py` — folder discovery -/

/-- Python `lst[-2]` on the result of `folder.split('/')`: `IndexError` when
the list is shorter than 2. -/
def pyIdxLast2 (l : List (List Char)) : Except PyErr (List Char) :=
  match l.reverse with
  | _ :: x :: _ => .ok x
  | _ => .error .indexError

/-- `EOBucket._find_product`: scans the folder list, rebinding `prd_name`
at every folder whose second-to-last path component contains `prd_date`;
`return prd_name` raises `UnboundLocalError` (a `NameError`) when no folder
matched. -/
def findProduct (folderList : List (List Char)) (prdDate : List Char) :
    Except PyErr (List Char) :=
  let step : Option (List Char) → List Char → Except PyErr (Option (List Char)) :=
    fun acc folder => do
      let comp ← pyIdxLast2 (splitCh '/' folder)
      if containsSub comp prdDate then .ok (some comp) else .ok acc
  match folderList.foldlM step none with
  | .error e => .error e
  | .ok none => .error .nameError
  | .ok (some name) => .ok name

/-- `EOBucket._find_aws_folder_number`: starts from the default `'0'` and
keeps the folder component with the greatest integer value; an empty folder
list returns the default `'0'` rather than failing. -/
def findAwsFolderNumber (folderList : List (List Char)) : Except PyErr (List Char) :=
  let step : List Char → List Char → Except PyErr (List Char) :=
    fun acc folder => do
      let comp ← pyIdxLast2 (splitCh '/' folder)
      match pyInt comp, pyInt acc with
      | some n, some a => if a < n then .ok comp else .ok acc
      | _, _ => .error (.valueError ("invalid literal for int".toList))
  folderList.foldlM step ("0".toList)

/-! ### `ewoc_dag/bucket/aws.py` — constructors -/

/-- `AWSEOBucket._SUPPORTED_BUCKET`. -/
def awsSupportedBuckets : List (List Char) :=
  [("sentinel-s1-l1c".toList), ("sentinel-s2-l1c".toList), ("sentinel-s2-l2a".toList),
   ("sentinel-cogs".toList), ("usgs-landsat".toList), ("copernicus-dem-30m".toList),
   ("copernicus-dem-90m".toList)]

/-- `AWSEOBucket.__init__`: an unsupported arn suffix raises
`ValueError('Bucket is not supported!')`; otherwise the bucket name is
stored (no network call happens at construction). -/
def awsEOBucketInit (arnSuffix : List Char) : Except PyErr (List Char) :=
  if awsSupportedBuckets.contains arnSuffix then .ok arnSuffix
  else .error (.valueError ("Bucket is not supported!".toList))

/-- The attributes of an `AWSCopDEMBucket` after `__init__`: `none` marks an
attribute the constructor never assigned. -/
structure CopDEMState where
  bucketName : Option (List Char)
  copdemPfx : Option (List Char)
  copdemSuffix : Option (List Char)
  deriving DecidableEq, Repr

/-- `AWSCopDEMBucket.__init__`: for `'1s'`/`'3s'` it calls the parent
constructor and sets the prefix; for any other resolution the source merely
evaluates the expression `ValueError('Resolution of Copernicus DEM is 1s or
3s!')` without `raise`, so the constructor falls through, assigns only
`_copdem_suffix`, and returns normally with `_bucket_name` and
`_copdem_prefix` never bound. -/
def awsCopDEMInit (resolution : List Char) : Except PyErr CopDEMState :=
  if resolution = ("1s".toList) then do
    let b ← awsEOBucketInit ("copernicus-dem-30m".toList)
    .ok ⟨some b, some ("Copernicus_DSM_COG_10_".toList), some ("_00_DEM".toList)⟩
  else if resolution = ("3s".toList) then do
    let b ← awsEOBucketInit ("copernicus-dem-90m".toList)
    .ok ⟨some b, some ("Copernicus_DSM_COG_30_".toList), some ("_00_DEM".toList)⟩
  else
    .ok ⟨none, none, some ("_00_DEM".toList)⟩

/-! ### `ewoc_dag/bucket/eobucket.py` — `EOBucket._upload_prd`

The directory walk `prd_dirpath.rglob(...)` is modelled by its sorted result:
a list of entries, each a path with a directory flag, the file size, and a
flag telling whether the underlying `upload_file` call fails with
`ClientError` (which `_upload_file` turns into `UploadFileError` and
`_upload_prd` chains into `UploadProductError`). -/

/-- One entry of the sorted `rglob` result inside `_upload_prd`. -/
structure UploadEntry where
  relPath : List Char
  isDir : Bool
  size : Nat
  uploadFails : Bool
  deriving DecidableEq, Repr

/-- The loop of `_upload_prd`, threading `nb_filepath`, the accumulated
size, and the last-assigned object key (`none` while `key` is still
unbound). -/
def uploadLoop (objectPfx : List Char) :
    List UploadEntry → Nat → Nat → Option (List Char) →
    Except PyErr (Nat × Nat × Option (List Char))
  | [], nb, size, key => .ok (nb, size, key)
  | e :: es, nb, size, key =>
    if e.isDir then uploadLoop objectPfx es (nb - 1) size key
    else
      let k := objectPfx ++ '/' :: e.relPath
      if e.uploadFails then .error .uploadProductError
      else uploadLoop objectPfx es nb (size + e.size) (some k)

/-- `EOBucket._upload_prd`: iterates over the (suffix-filtered, sorted)
entries, then returns `(nb_filepath, upload_object_size, bucket path)` where
the bucket path is rebuilt from the loop variable `key` — evaluating `key`
raises `UnboundLocalError` (a `NameError`) when the loop never assigned
it. -/
def uploadPrd (bucketName objectPfx : List Char) (entries : List UploadEntry) :
    Except PyErr (Nat × Nat × List Char) :=
  match uploadLoop objectPfx entries entries.length 0 none with
  | .error e => .error e
  | .ok (_, _, none) => .error .nameError
  | .ok (nb, size, some key) =>
    .ok (nb, size,
      ("s3://".toList) ++ bucketName ++ '/' ::
        joinCh '/' ((splitCh '/' key).dropLast))

/-! ### Filesystem model for `ewoc_dag/safe_format.py`

Local paths are modelled as lists of components (`Path := List (List Char)`),
file contents either as an opaque blob or as an already-decoded JSON
`filenameMap` (the only JSON the S1 conversion reads), and the filesystem as
the lists of existing directories and files.  Every operation mirrors the
`pathlib`/`shutil` call it is named after and fails where CPython raises. -/

/-- A filesystem path, as its list of components. -/
abbrev FsPath := List (List Char)

/-- File contents: an opaque blob, or the decoded `filenameMap` of a
`productInfo.json` sidecar (canonical SAFE path ↦ flat path). -/
inductive FileData where
  | blob (id : Nat)
  | json (filenameMap : List (FsPath × FsPath))
  deriving DecidableEq, Repr

/-- The filesystem: existing directories and files. -/
structure Fs where
  dirs : List FsPath
  files : List (FsPath × FileData)
  deriving DecidableEq, Repr

/-- Whether a file exists at `p`. -/
def Fs.fileAt (fs : Fs) (p : FsPath) : Option FileData :=
  fs.files.lookup p

/-- `Path.exists()`: true for a file or a directory. -/
def Fs.pathExists (fs : Fs) (p : FsPath) : Bool :=
  decide (p ∈ fs.dirs) || (fs.fileAt p).isSome

/-- `Path.parent`. -/
def fsParent (p : FsPath) : FsPath := p.dropLast

/-- `Path.mkdir(exist_ok=True)` (no `parents`): succeeds silently on an
existing directory, raises `FileExistsError` on an existing file, raises
`FileNotFoundError` when the parent directory is missing. -/
def Fs.mkdir (fs : Fs) (p : FsPath) : Fs × Except PyErr Unit :=
  if p ∈ fs.dirs then (fs, .ok ())
  else if (fs.fileAt p).isSome then (fs, .error (.fileExistsError p))
  else if fsParent p ∈ fs.dirs then ({ fs with dirs := p :: fs.dirs }, .ok ())
  else (fs, .error (.fileNotFoundError p))

/-- The non-empty ancestors of a path, the path itself included. -/
def fsAncestors (p : FsPath) : List FsPath :=
  p.inits.filter (fun q => !q.isEmpty)

/-- `Path.mkdir(parents=True, exist_ok=True)`: creates every missing
ancestor; fails when some ancestor exists as a file. -/
def Fs.mkdirParents (fs : Fs) (p : FsPath) : Fs × Except PyErr Unit :=
  if (fsAncestors p).any (fun q => (fs.fileAt q).isSome) then
    (fs, .error (.fileExistsError p))
  else ({ fs with dirs := fsAncestors p ++ fs.dirs }, .ok ())

/-- `Path.rename(target)` on a file: raises `FileNotFoundError` when the
source file or the target's parent directory is missing; otherwise moves the
contents, silently replacing any file already at the target. -/
def Fs.rename (fs : Fs) (src dst : FsPath) : Fs × Except PyErr Unit :=
  match fs.fileAt src with
  | none => (fs, .error (.fileNotFoundError src))
  | some c =>
    if fsParent dst ∈ fs.dirs then
      ({ fs with
         files := (dst, c) :: fs.files.filter (fun e => decide (e.1 ≠ src ∧ e.1 ≠ dst)) },
       .ok ())
    else (fs, .error (.fileNotFoundError dst))

/-- `Path.rmdir()`: raises `FileNotFoundError` on a missing directory and
`OSError` (directory not empty) when anything lives underneath. -/
def Fs.rmdir (fs : Fs) (p : FsPath) : Fs × Except PyErr Unit :=
  if p ∈ fs.dirs then
    if (∃ d ∈ fs.dirs, p <+: d ∧ d ≠ p) ∨ (∃ e ∈ fs.files, p <+: e.1) then
      (fs, .error (.dirNotEmptyError p))
    else ({ fs with dirs := fs.dirs.filter (fun d => decide (d ≠ p)) }, .ok ())
  else (fs, .error (.fileNotFoundError p))

/-- `shutil.rmtree(p)`: removes the directory and everything under it;
raises `FileNotFoundError` on a missing directory. -/
def Fs.rmtree (fs : Fs) (p : FsPath) : Fs × Except PyErr Unit :=
  if p ∈ fs.dirs then
    ({ dirs := fs.dirs.filter (fun d => !decide (p <+: d)),
       files := fs.files.filter (fun e => !decide (p <+: e.1)) }, .ok ())
  else (fs, .error (.fileNotFoundError p))

/-- `open(...)` followed by `json.load`: `FileNotFoundError` on a missing
file, `JSONDecodeError` (a `ValueError`) on contents that are not the
expected JSON. -/
def Fs.readJson (fs : Fs) (p : FsPath) : Except PyErr (List (FsPath × FsPath)) :=
  match fs.fileAt p with
  | some (.json m) => .ok m
  | some (.blob _) => .error (.valueError ("Expecting value".toList))
  | none => .error (.fileNotFoundError p)

/-! ### `ewoc_dag/safe_format.py` — S1 SAFE reconstruction -/

/-- The sidecar filename `productInfo.json`. -/
def piJson : List Char := "productInfo.json".toList

/-- The move loop of `aws_s1_to_safe`: for each `filenameMap` entry
(canonical SAFE path ↦ flat path), create the target's parent directories
and move the flat file into the SAFE tree.  Any failure propagates with the
filesystem as mutated so far. -/
def s1MoveLoop (outDir outSafe : FsPath) :
    List (FsPath × FsPath) → Fs → Fs × Except PyErr Unit
  | [], fs => (fs, .ok ())
  | (kPath, vPath) :: rest, fs =>
    match fs.mkdirParents (fsParent (outSafe ++ kPath)) with
    | (fs1, .error e) => (fs1, .error e)
    | (fs1, .ok ()) =>
      match fs1.rename (outDir ++ vPath) (outSafe ++ kPath) with
      | (fs2, .error e) => (fs2, .error e)
      | (fs2, .ok ()) => s1MoveLoop outDir outSafe rest fs2

/-- `aws_s1_to_safe`: read the `productInfo.json` sidecar and move every
`filenameMap` entry into the SAFE tree. -/
def awsS1ToSafe (fs : Fs) (outDir outSafe : FsPath) : Fs × Except PyErr FsPath :=
  match fs.readJson (outDir ++ [piJson]) with
  | .error e => (fs, .error e)
  | .ok m =>
    match s1MoveLoop outDir outSafe m fs with
    | (fs1, .error e) => (fs1, .error e)
    | (fs1, .ok ()) => (fs1, .ok outSafe)

/-- The `.SAFE`-suffixed product id of `aws_to_safe`. -/
def safePrdIdOf (prdId : List Char) : List Char :=
  if (".SAFE".toList).isSuffixOf prdId then prdId else prdId ++ (".SAFE".toList)

/-- `S2PrdIdInfo.is_l1c` of the `ewoc_dag` S2 module, which is not under
`src/`.  Modelled from the spec: the S2 branch of `aws_to_safe` handles only
L1C products, so `is_l1c` tests that the parsed product level is `L1C`. -/
def s2IsL1c (s : List Char) : Bool :=
  match parseS2 s with
  | .ok info => info.productLevel = ("L1C".toList)
  | .error _ => false

/-- `aws_to_safe`: build the target `.SAFE` directory path (side by side
with the flat product when `out_safe_dirroot` is `None`), `mkdir` it, then
dispatch on the product id.  For a valid S1 id: if the `productInfo.json`
sidecar is missing, remove the just-created target directory and raise
`S1SafeConversionError`; otherwise run `aws_s1_to_safe`.  For a valid S2 L1C
id the conversion `aws_s2_l1c_to_safe` runs — it is passed here as the
parameter `s2conv`, since the S1 claims never reach that branch.  On success
the flat directory is removed with `shutil.rmtree` only after the conversion
returned. -/
def awsToSafe (s2conv : Fs → FsPath → FsPath → Fs × Except PyErr FsPath)
    (fs : Fs) (outDir : FsPath) (prdId : List Char) (outSafeDirroot : Option FsPath) :
    Fs × Except PyErr FsPath :=
  let safePrdId := safePrdIdOf prdId
  let outSafe :=
    match outSafeDirroot with
    | none => fsParent outDir ++ [safePrdId]
    | some r => r ++ [safePrdId]
  match fs.mkdir outSafe with
  | (fs0, .error e) => (fs0, .error e)
  | (fs0, .ok ()) =>
    match s1IsValid prdId with
    | .error e => (fs0, .error e)
    | .ok true =>
      if fs0.pathExists (outDir ++ [piJson]) then
        match awsS1ToSafe fs0 outDir outSafe with
        | (fs1, .error e) => (fs1, .error e)
        | (fs1, .ok sp) =>
          match fs1.rmtree outDir with
          | (fs2, .error e) => (fs2, .error e)
          | (fs2, .ok ()) => (fs2, .ok sp)
      else
        match fs0.rmdir outSafe with
        | (fs1, .error e) => (fs1, .error e)
        | (fs1, .ok ()) =>
          (fs1, .error (.s1SafeConversionError
            (("No conversion file for ".toList) ++ (splitCh '.' prdId).headD [])))
    | .ok false =>
      match s2IsValid prdId with
      | .error e => (fs0, .error e)
      | .ok sv =>
        if sv && s2IsL1c prdId then
          match s2conv fs0 outDir outSafe with
          | (fs1, .error e) => (fs1, .error e)
          | (fs1, .ok sp) =>
            match fs1.rmtree outDir with
            | (fs2, .error e) => (fs2, .error e)
            | (fs2, .ok ()) => (fs2, .ok sp)
        else (fs0, .error (.valueError ("Product ID not supported!".toList)))

/-- The `safe_format` block of `AWSS1Bucket.download_prd` (lines 124-131):
call `aws_to_safe`; on `S1SafeConversionError` remove the whole flat product
directory with `shutil.rmtree(out_dirpath)` and raise `AWSDownloadError`;
every other outcome passes through. -/
def downloadPrdSafeStep (s2conv : Fs → FsPath → FsPath → Fs × Except PyErr FsPath)
    (fs : Fs) (outDir : FsPath) (prdId : List Char) :
    Fs × Except PyErr FsPath :=
  match awsToSafe s2conv fs outDir prdId none with
  | (fs1, .error (.s1SafeConversionError m)) =>
    match fs1.rmtree outDir with
    | (fs2, .error e) => (fs2, .error e)
    | (fs2, .ok ()) => (fs2, .error (.awsDownloadError (.s1SafeConversionError m)))
  | r => r

/-- Placeholder S2 converter used when instantiating `awsToSafe` at concrete
S1 inputs, where the S2 branch is unreachable (the product id is a valid
S1 id, so the dispatch never calls it). -/
def s2ConvUnused : Fs → FsPath → FsPath → Fs × Except PyErr FsPath :=
  fun fs _ _ => (fs, .error (.valueError ("unreachable".toList)))

/-- The target `.SAFE` directory of `aws_to_safe` when `out_safe_dirroot`
is `None`: a sibling of the flat product directory. -/
def outSafeOf (outDir : FsPath) (prdId : List Char) : FsPath :=
  fsParent outDir ++ [safePrdIdOf prdId]

/-! ### Concrete fixtures for the SAFE-reconstruction theorems -/

/-- A valid S1 product id (no `.SAFE` suffix), as downloaded by
`AWSS1Bucket.download_prd`. -/
def exS1Id : List Char :=
  "S1A_IW_GRDH_1SDV_20210708T060105_20210708T060130_038682_04908E_8979".toList

/-- Root work directory of the fixtures. -/
def exTmp : List Char := "tmp".toList

/-- The flat product directory `tmp/<id>`. -/
def exOutDir : FsPath := [exTmp, exS1Id]

/-- A flat S1 product directory without the `productInfo.json` sidecar. -/
def exFs : Fs :=
  ⟨[[exTmp], exOutDir],
   [(exOutDir ++ [("measurement.tiff").toList], .blob 0)]⟩

/-- A one-entry `filenameMap`: canonical `measurement/a.tiff` comes from the
flat file `m.tiff`. -/
def exMap : List (FsPath × FsPath) :=
  [([("measurement").toList, ("a.tiff").toList], [("m.tiff").toList])]

/-- A flat S1 product directory with a sidecar and the flat file it maps. -/
def exFsOk : Fs :=
  ⟨[[exTmp], exOutDir],
   [(exOutDir ++ [piJson], .json exMap),
    (exOutDir ++ [("m.tiff").toList], .blob 7)]⟩

/-! ## Theorems -/

/-- Claim C5: for the S1 descriptor parsed from
`S1A_IW_GRDH_1SDV_20210708T060105_20210708T060130_038682_04908E_8979.SAFE`,
the AWS S1 key prefix derived by `AWSS1Bucket.download_prd` is
`GRD/2021/7/8/IW/DV/S1A_IW_GRDH_1SDV_20210708T060105_20210708T060130_038682_04908E_8979/`
— month and day rendered without zero padding and the `.SAFE` suffix
stripped. -/
theorem c5_aws_s1_key_derivation :
    awsS1PrdPfx
        (("S1A_IW_GRDH_1SDV_20210708T060105_20210708T060130_038682_04908E_8979.SAFE").toList)
      = .ok
        (("GRD/2021/7/8/IW/DV/S1A_IW_GRDH_1SDV_20210708T060105_20210708T060130_038682_04908E_8979/").toList) := by
  decide

/-- Claim C6 (code bug): with zero candidate folders, `EOBucket._find_product`
raises `UnboundLocalError` (`prd_name` never bound) instead of a
`NotFoundError`, and `EOBucket._find_aws_folder_number` silently returns the
default `'0'` instead of failing. -/
theorem c6_folder_discovery_zero_candidates :
    findProduct [] (("20210714").toList) = .error .nameError ∧
    findAwsFolderNumber [] = .ok (("0").toList) := by
  decide

/-- Claim C9 (code bug): `AWSEOBucket.__init__` does reject an unsupported
bucket name with `ValueError`, but `AWSCopDEMBucket.__init__` with an
unsupported resolution (here `'2s'`) merely constructs
`ValueError('Resolution of Copernicus DEM is 1s or 3s!')` without raising
it: the constructor returns normally with `_bucket_name` and
`_copdem_prefix` never assigned. -/
theorem c9_copdem_unsupported_resolution_not_raised :
    awsEOBucketInit (("foo").toList)
        = .error (.valueError (("Bucket is not supported!").toList)) ∧
    awsCopDEMInit (("2s").toList) = .ok ⟨none, none, some (("_00_DEM").toList)⟩ := by
  decide

/-- Claim C2, counterexample: an S2 product id whose tile block
`T28WDBX` carries a six-character tile id is accepted — the slice
`elt_prd_id[5][1:6]` truncates it to `28WDB` and construction succeeds, so
`is_valid` returns `True`, contradicting the claim that length-6 tile ids
are rejected. -/
theorem c2_counterexample_len6_tile_accepted :
    ((s2Tokens
        (("S2B_MSIL2A_20210714T131719_N0301_R124_T28WDBX_20210714T160455.SAFE").toList)).getD
        5 []).length = 7 ∧
    (parseS2
        (("S2B_MSIL2A_20210714T131719_N0301_R124_T28WDBX_20210714T160455.SAFE").toList)).map
        S2PrdIdInfo.tileId = .ok (("28WDB").toList) ∧
    s2IsValid
        (("S2B_MSIL2A_20210714T131719_N0301_R124_T28WDBX_20210714T160455.SAFE").toList)
      = .ok true := by
  decide

/-- Claim C1, counterexample: the 9-token id
`S1A_IW_GRD_1SXX_20210708T060105_20210708T060130_038682_04908E_8979` has a
polarisation field `XX` that fails its enum check, yet construction fails
with `IndexError` (from `elt_prd_id[2][3]` on the three-character token
`GRD`), not `ValueError`, and `is_valid` propagates the `IndexError`
instead of returning `False`. -/
theorem c1_counterexample_indexerror_preempts :
    (s1Tokens
        (("S1A_IW_GRD_1SXX_20210708T060105_20210708T060130_038682_04908E_8979").toList)).length
        = 9 ∧
    s1PolOk ((s1Tokens
        (("S1A_IW_GRD_1SXX_20210708T060105_20210708T060130_038682_04908E_8979").toList)).getD
        3 []) = false ∧
    parseS1
        (("S1A_IW_GRD_1SXX_20210708T060105_20210708T060130_038682_04908E_8979").toList)
      = .error .indexError ∧
    s1IsValid
        (("S1A_IW_GRD_1SXX_20210708T060105_20210708T060130_038682_04908E_8979").toList)
      = .error .indexError := by
  decide

/-- When every remaining entry is a directory, the `_upload_prd` loop only
decrements the counter and never assigns `key`. -/
theorem uploadLoop_all_dirs (pfx : List Char) (es : List UploadEntry)
    (h : ∀ e ∈ es, e.isDir = true) :
    ∀ nb size k, uploadLoop pfx es nb size k = .ok (nb - es.length, size, k) := by
  induction es with
  | nil => intro nb size k; simp [uploadLoop]
  | cons e es ih =>
    intro nb size k
    have he : e.isDir = true := h e (List.mem_cons_self e es)
    have ih' := ih (fun x hx => h x (List.mem_cons_of_mem e hx)) (nb - 1) size k
    simp only [uploadLoop, he, if_pos, ih', List.length_cons]
    congr 2
    omega

/-- A successful `_upload_prd` loop that ends with `key` bound saw at least
one non-directory entry. -/
theorem uploadLoop_key_bound (pfx : List Char) :
    ∀ (es : List UploadEntry) (nb size : Nat) (a b : Nat) (key : List Char),
      uploadLoop pfx es nb size none = .ok (a, b, some key) →
      ∃ e ∈ es, e.isDir = false := by
  intro es
  induction es with
  | nil => intro nb size a b key h; simp [uploadLoop] at h
  | cons e es ih =>
    intro nb size a b key h
    by_cases he : e.isDir = true
    · simp only [uploadLoop, he, if_pos] at h
      obtain ⟨x, hx, hxd⟩ := ih _ _ _ _ _ h
      exact ⟨x, List.mem_cons_of_mem e hx, hxd⟩
    · exact ⟨e, List.mem_cons_self e es, by simpa using he⟩

/-- Claim C10: `EOBucket._upload_prd` on a directory with no matching file
(every walked entry a directory, in particular an empty directory) does not
return a `(0, 0)` result — it raises `UnboundLocalError` because the object
key used to rebuild the returned bucket path is assigned only inside the
per-file loop; a normal return requires at least one matching file. -/
theorem c10_upload_prd_requires_matching_file
    (bucketName objectPfx : List Char) (entries : List UploadEntry) :
    ((∀ e ∈ entries, e.isDir = true) →
      uploadPrd bucketName objectPfx entries = .error .nameError) ∧
    (∀ nb size path, uploadPrd bucketName objectPfx entries = .ok (nb, size, path) →
      ∃ e ∈ entries, e.isDir = false) := by
  constructor
  · intro hall
    have h := uploadLoop_all_dirs objectPfx entries hall entries.length 0 none
    simp [uploadPrd, h]
  · intro nb size path h
    unfold uploadPrd at h
    cases h0 : uploadLoop objectPfx entries entries.length 0 none with
    | error e => rw [h0] at h; cases h
    | ok r =>
      obtain ⟨a, b, k⟩ := r
      cases k with
      | none => rw [h0] at h; cases h
      | some key => exact uploadLoop_key_bound objectPfx entries _ _ _ _ _ h0

/-- Witness for C10 at the empty directory. -/
theorem c10_witness :
    uploadPrd (("bucket").toList) (("pfx").toList) [] = .error .nameError :=
  (c10_upload_prd_requires_matching_file (("bucket").toList) (("pfx").toList) []).1
    (by intro e he; cases he)

/-- Claim C4: when a listing response of `_download_prd` has no `Contents`
field — after any number of well-formed pages — the call raises
`EOBucketException` carrying the requested prefix, the raw response and the
bucket name; it never succeeds as if the listing were empty. -/
theorem c4_missing_contents_raises
    (bucket prdPfx outDir : List Char) (prdItems : Option (List (List Char)))
    (pre : List S3Page) (p : S3Page) (post : List S3Page) (fs : List (List Char))
    (hpre : ∀ q ∈ pre, q.contents.isSome = true ∧ q.nextToken.isSome = true)
    (hp : p.contents = none) :
    ∃ fs2, downloadPrd bucket prdPfx prdItems outDir (pre ++ p :: post) fs =
      (fs2, .error (.eoBucketExc prdPfx p.contents p.nextToken bucket)) := by
  induction pre generalizing fs with
  | nil =>
    exact ⟨fs, by simp [downloadPrd, hp]⟩
  | cons q pre ih =>
    obtain ⟨hqc, hqt⟩ := hpre q (List.mem_cons_self q pre)
    obtain ⟨keys, hk⟩ := Option.isSome_iff_exists.mp hqc
    obtain ⟨tok, ht⟩ := Option.isSome_iff_exists.mp hqt
    obtain ⟨fs2, h2⟩ :=
      ih (dlProcessKeys prdItems outDir prdPfx keys fs).1
        (fun x hx => hpre x (List.mem_cons_of_mem q hx))
    refine ⟨fs2, ?_⟩
    simp [downloadPrd, hk, ht, h2, Except.map]

/-- Witness for C4: one well-formed first page, then a page without
`Contents`. -/
theorem c4_witness :
    ∃ fs2, downloadPrd (("bkt").toList) (("a/b/").toList) none (("out").toList)
      [⟨some [(("a/b/x.tif").toList)], some (("tok").toList)⟩, ⟨none, none⟩] [] =
      (fs2, .error (.eoBucketExc (("a/b/").toList) none none (("bkt").toList))) :=
  c4_missing_contents_raises (("bkt").toList) (("a/b/").toList) (("out").toList) none
    [⟨some [(("a/b/x.tif").toList)], some (("tok").toList)⟩] ⟨none, none⟩ [] []
    (by decide) rfl

/-- The per-page body of `_download_prd` composes over key-list
concatenation. -/
theorem dlProcessKeys_append (pi : Option (List (List Char))) (od pp : List Char) :
    ∀ (ks1 ks2 : List (List Char)) (fs : List (List Char)),
      dlProcessKeys pi od pp (ks1 ++ ks2) fs =
        ((dlProcessKeys pi od pp ks2 (dlProcessKeys pi od pp ks1 fs).1).1,
         (dlProcessKeys pi od pp ks1 fs).2 ++
           (dlProcessKeys pi od pp ks2 (dlProcessKeys pi od pp ks1 fs).1).2) := by
  intro ks1
  induction ks1 with
  | nil => intro ks2 fs; simp [dlProcessKeys]
  | cons k ks1 ih =>
    intro ks2 fs
    by_cases hw : dlWanted pi od pp fs k = true
    · simp [dlProcessKeys, hw, ih]
    · simp only [Bool.not_eq_true] at hw
      simp [dlProcessKeys, hw, ih]

/-- One step of the `_download_prd` loop on a page with `Contents` and a
continuation token. -/
theorem downloadPrd_cons_some (bucket pp : List Char) (pi : Option (List (List Char)))
    (od : List Char) (p : S3Page) (rest : List S3Page) (fs keys : List (List Char))
    (tok : List Char) (hk : p.contents = some keys) (ht : p.nextToken = some tok) :
    downloadPrd bucket pp pi od (p :: rest) fs =
      ((downloadPrd bucket pp pi od rest (dlProcessKeys pi od pp keys fs).1).1,
       (downloadPrd bucket pp pi od rest (dlProcessKeys pi od pp keys fs).1).2.map
         (fun dls => (dlProcessKeys pi od pp keys fs).2 ++ dls)) := by
  simp [downloadPrd, hk, ht]

/-- Over chained pages whose `Contents` are all present, `_download_prd`
succeeds and behaves as one pass over the concatenated key listing. -/
theorem downloadPrd_flatten (bucket pp : List Char) (pi : Option (List (List Char)))
    (od : List Char) :
    ∀ (ps : List S3Page) (fs : List (List Char)),
      (∀ p ∈ ps, p.contents.isSome = true) → pagesChained ps →
      downloadPrd bucket pp pi od ps fs =
        ((dlProcessKeys pi od pp (pagesKeys ps) fs).1,
         .ok (dlProcessKeys pi od pp (pagesKeys ps) fs).2) := by
  intro ps
  induction ps with
  | nil => intro fs _ _; simp [downloadPrd, pagesKeys, dlProcessKeys]
  | cons p rest ih =>
    intro fs hc hch
    obtain ⟨keys, hk⟩ :=
      Option.isSome_iff_exists.mp (hc p (List.mem_cons_self p rest))
    have hkeys : pagesKeys (p :: rest) = keys ++ pagesKeys rest := by
      simp [pagesKeys, hk]
    cases rest with
    | nil =>
      cases ht : p.nextToken with
      | none => simp [downloadPrd, hk, ht, hkeys, pagesKeys, dlProcessKeys]
      | some tok =>
        simp [downloadPrd, hk, ht, hkeys, pagesKeys, dlProcessKeys, Except.map]
    | cons q rest2 =>
      obtain ⟨htok, hch2⟩ := hch
      obtain ⟨tok, ht⟩ := Option.isSome_iff_exists.mp htok
      have ih2 := ih ((dlProcessKeys pi od pp keys fs).1)
        (fun x hx => hc x (List.mem_cons_of_mem p hx)) hch2
      rw [downloadPrd_cons_some bucket pp pi od p (q :: rest2) fs keys tok hk ht, ih2]
      simp [hkeys, dlProcessKeys_append, Except.map]

/-- Keys transferred by one pass of the `_download_prd` body: exactly the
listed keys that are selected, are not directory markers, and whose
destination is not yet present — provided no two listed keys collide on the
same destination path. -/
theorem dlProcessKeys_mem (pi : Option (List (List Char))) (od pp : List Char) :
    ∀ (ks : List (List Char)) (fs : List (List Char)),
      (ks.map (dlDest od pp)).Nodup →
      ∀ k, k ∈ (dlProcessKeys pi od pp ks fs).2 ↔
        (k ∈ ks ∧ objSelected pi k = true ∧ (('/' :: []).isSuffixOf k) = false ∧
          dlDest od pp k ∉ fs) := by
  intro ks
  induction ks with
  | nil => intro fs _ k; simp [dlProcessKeys]
  | cons k0 ks ih =>
    intro fs hnd k
    rw [List.map_cons, List.nodup_cons] at hnd
    obtain ⟨hd1, hd2⟩ := hnd
    have hk0mem : k0 ∉ ks := fun h => hd1 (List.mem_map_of_mem (dlDest od pp) h)
    by_cases hw : dlWanted pi od pp fs k0 = true
    · have hw' := hw
      simp only [dlWanted, Bool.and_eq_true, Bool.not_eq_true', decide_eq_false_iff_not]
        at hw'
      obtain ⟨⟨hsel, hsuf⟩, hmem⟩ := hw'
      simp only [dlProcessKeys, hw, if_pos, List.mem_cons]
      by_cases hk : k = k0
      · subst hk
        constructor
        · intro _; exact ⟨Or.inl rfl, hsel, hsuf, hmem⟩
        · intro _; left; rfl
      · have hrec := ih (dlDest od pp k0 :: fs) hd2 k
        constructor
        · rintro (h | h)
          · exact absurd h hk
          · obtain ⟨hmem2, hs, hf, hnm⟩ := hrec.mp h
            exact ⟨Or.inr hmem2, hs, hf,
              fun hin => hnm (List.mem_cons_of_mem _ hin)⟩
        · rintro ⟨hmem2 | hmem2, hs, hf, hnm⟩
          · exact absurd hmem2 hk
          · right
            refine hrec.mpr ⟨hmem2, hs, hf, ?_⟩
            intro hin
            rcases List.mem_cons.mp hin with heq | hin2
            · exact hd1 (heq ▸ List.mem_map_of_mem (dlDest od pp) hmem2)
            · exact hnm hin2
    · simp only [Bool.not_eq_true] at hw
      have hw' := hw
      simp only [dlWanted, Bool.and_eq_false_iff, Bool.not_eq_false',
        decide_eq_true_eq] at hw'
      simp only [dlProcessKeys, hw, Bool.false_eq_true, if_false, List.mem_cons]
      have hrec := ih fs hd2 k
      constructor
      · intro h
        obtain ⟨hmem2, hs, hf, hnm⟩ := hrec.mp h
        exact ⟨Or.inr hmem2, hs, hf, hnm⟩
      · rintro ⟨hmem2 | hmem2, hs, hf, hnm⟩
        · subst hmem2
          rcases hw' with (h1 | h1) | h1
          · rw [hs] at h1; cases h1
          · rw [h1] at hf; cases hf
          · exact absurd h1 hnm
        · exact hrec.mpr ⟨hmem2, hs, hf, hnm⟩

/-- When no listed key is wanted, the `_download_prd` body changes nothing
and transfers nothing. -/
theorem dlProcessKeys_noop (pi : Option (List (List Char))) (od pp : List Char) :
    ∀ (ks : List (List Char)) (fs : List (List Char)),
      (∀ k ∈ ks, dlWanted pi od pp fs k = false) →
      dlProcessKeys pi od pp ks fs = (fs, []) := by
  intro ks
  induction ks with
  | nil => intro fs _; simp [dlProcessKeys]
  | cons k0 ks ih =>
    intro fs h
    have h0 : dlWanted pi od pp fs k0 = false := h k0 (List.mem_cons_self k0 ks)
    simp [dlProcessKeys, h0, ih fs (fun x hx => h x (List.mem_cons_of_mem k0 hx))]

/-- Claim C3: in every `_download_prd` call over well-formed chained pages,
a listed key is transferred iff it is not a pseudo-directory marker, it
matches the item filter, and its destination file does not already exist;
re-running against a fully populated destination transfers nothing and
leaves the destination file set unchanged. -/
theorem c3_download_filter_and_idempotence
    (bucket prdPfx outDir : List Char) (prdItems : Option (List (List Char)))
    (pages : List S3Page) (fs : List (List Char))
    (hc : ∀ p ∈ pages, p.contents.isSome = true)
    (hch : pagesChained pages)
    (hnd : ((pagesKeys pages).map (dlDest outDir prdPfx)).Nodup) :
    ∃ fs2 dls,
      downloadPrd bucket prdPfx prdItems outDir pages fs = (fs2, .ok dls) ∧
      (∀ k, k ∈ dls ↔
        (k ∈ pagesKeys pages ∧ objSelected prdItems k = true ∧
          (('/' :: []).isSuffixOf k) = false ∧ dlDest outDir prdPfx k ∉ fs)) ∧
      ((∀ k ∈ pagesKeys pages, dlDest outDir prdPfx k ∈ fs) →
        dls = [] ∧ fs2 = fs) := by
  refine ⟨(dlProcessKeys prdItems outDir prdPfx (pagesKeys pages) fs).1,
    (dlProcessKeys prdItems outDir prdPfx (pagesKeys pages) fs).2,
    downloadPrd_flatten bucket prdPfx prdItems outDir pages fs hc hch, ?_, ?_⟩
  · exact dlProcessKeys_mem prdItems outDir prdPfx (pagesKeys pages) fs hnd
  · intro hfull
    have hnoop := dlProcessKeys_noop prdItems outDir prdPfx (pagesKeys pages) fs
      (fun k hk => by
        simp [dlWanted, hfull k hk])
    rw [hnoop]
    exact ⟨rfl, rfl⟩

/-- Witness for C3: a one-page listing with a file key and a
pseudo-directory marker. -/
theorem c3_witness :
    ∃ fs2 dls,
      downloadPrd (("bkt").toList) (("a/b/").toList) none (("out").toList)
        [⟨some [(("a/b/k1.tif").toList), (("a/b/sub/").toList)], none⟩] [] =
        (fs2, .ok dls) ∧
      (∀ k, k ∈ dls ↔
        (k ∈ pagesKeys [⟨some [(("a/b/k1.tif").toList), (("a/b/sub/").toList)], none⟩] ∧
          objSelected none k = true ∧ (('/' :: []).isSuffixOf k) = false ∧
          dlDest (("out").toList) (("a/b/").toList) k ∉ ([] : List (List Char)))) ∧
      ((∀ k ∈ pagesKeys [⟨some [(("a/b/k1.tif").toList), (("a/b/sub/").toList)], none⟩],
          dlDest (("out").toList) (("a/b/").toList) k ∈ ([] : List (List Char))) →
        dls = [] ∧ fs2 = []) :=
  c3_download_filter_and_idempotence (("bkt").toList) (("a/b/").toList)
    (("out").toList) none
    [⟨some [(("a/b/k1.tif").toList), (("a/b/sub/").toList)], none⟩] []
    (by decide) (by decide) (by decide)

/-- `parseS1` is the constructor body applied to the stripped id and its
token list. -/
theorem parseS1_eq (s : List Char) :
    parseS1 s = s1Ctor ((splitCh '.' s).headD []) (s1Tokens s) := rfl

/-- A token list of length nine is literally a nine-element list. -/
theorem list_len_nine {α : Type} (ts : List α) (h : ts.length = 9) :
    ∃ a b c d e f g h' i, ts = [a, b, c, d, e, f, g, h', i] := by
  rcases ts with _ | ⟨a, _ | ⟨b, _ | ⟨c, _ | ⟨d, _ | ⟨e, _ | ⟨f, _ | ⟨g, _ |
    ⟨h2, _ | ⟨i, _ | ⟨j, rest⟩⟩⟩⟩⟩⟩⟩⟩⟩⟩ <;> simp_all

/-- A wrong token count makes `S1PrdIdInfo.__init__` fail with the
token-count `ValueError`. -/
theorem s1Ctor_wrong_count (w : List Char) (ts : List (List Char))
    (h : ts.length ≠ 9) :
    s1Ctor w ts = .error (.valueError
      (("Sentinel 1 product id not provides the 9 keys values requested!").toList)) := by
  rcases ts with _ | ⟨a, _ | ⟨b, _ | ⟨c, _ | ⟨d, _ | ⟨e, _ | ⟨f, _ | ⟨g, _ |
    ⟨h2, _ | ⟨i, _ | ⟨j, rest⟩⟩⟩⟩⟩⟩⟩⟩⟩⟩ <;> first | rfl | simp_all

/-- When the token list has nine entries, the extractions are in range, and
some field fails its enum/length/date check, `S1PrdIdInfo.__init__` raises a
`ValueError` — equivalently, `is_valid` returns `False`. -/
theorem s1_checks_fail_isvalid_false (s : List Char)
    (hlen : (s1Tokens s).length = 9) (hx : s1ExtractOk (s1Tokens s))
    (hf : s1AllChecks (s1Tokens s) = false) : s1IsValid s = .ok false := by
  obtain ⟨t0, t1, t2, t3, t4, t5, t6, t7, t8, hts⟩ := list_len_nine _ hlen
  rw [hts] at hx hf
  simp only [s1ExtractOk, List.getD_cons_zero, List.getD_cons_succ] at hx
  obtain ⟨hx2, hx3⟩ := hx
  obtain ⟨c2, hg2⟩ : ∃ c, t2.get? 3 = some c := by
    cases hg : t2.get? 3 with
    | none => exact absurd (List.get?_eq_none.mp hg) (by omega)
    | some c => exact ⟨c, rfl⟩
  obtain ⟨c30, hg30⟩ : ∃ c, t3.get? 0 = some c := by
    cases hg : t3.get? 0 with
    | none => exact absurd (List.get?_eq_none.mp hg) (by omega)
    | some c => exact ⟨c, rfl⟩
  obtain ⟨c31, hg31⟩ : ∃ c, t3.get? 1 = some c := by
    cases hg : t3.get? 1 with
    | none => exact absurd (List.get?_eq_none.mp hg) (by omega)
    | some c => exact ⟨c, rfl⟩
  by_cases h0 : ([(("S1A").toList), (("S1B").toList)].contains t0) = true
  case neg =>
    simp_all [s1IsValid, parseS1_eq, s1Ctor, pyCheckEnum]
  by_cases h1 :
      ([(("SM").toList), (("IW").toList), (("EW").toList), (("WV").toList)].contains t1)
        = true
  case neg =>
    simp_all [s1IsValid, parseS1_eq, s1Ctor, pyCheckEnum]
  by_cases h2 :
      ([(("SLC").toList), (("GRD").toList), (("OCN").toList)].contains (t2.take 3)) = true
  case neg =>
    simp_all [s1IsValid, parseS1_eq, s1Ctor, pyCheckEnum]
  by_cases h3 : ([(("F").toList), (("H").toList), (("M").toList)].contains [c2]) = true
  case neg =>
    simp_all [s1IsValid, parseS1_eq, s1Ctor, pyCheckEnum, pyIndex]
  by_cases h4 : ([(("1").toList), (("2").toList)].contains [c30]) = true
  case neg =>
    simp_all [s1IsValid, parseS1_eq, s1Ctor, pyCheckEnum, pyIndex]
  by_cases h5 : ([(("S").toList), (("A").toList)].contains [c31]) = true
  case neg =>
    simp_all [s1IsValid, parseS1_eq, s1Ctor, pyCheckEnum, pyIndex]
  by_cases h6 :
      ([(("SH").toList), (("SV").toList), (("DH").toList), (("DV").toList)].contains
        (t3.drop 2)) = true
  case neg =>
    simp_all [s1IsValid, parseS1_eq, s1Ctor, pyCheckEnum, pyIndex]
  by_cases h7 : (strptimeS1Fmt t4).isSome = true
  case neg =>
    have h7n : strptimeS1Fmt t4 = none := by
      cases hgg : strptimeS1Fmt t4
      · rfl
      · rw [hgg] at h7; simp at h7
    simp_all [s1IsValid, parseS1_eq, s1Ctor, pyCheckEnum, pyIndex, pyStrptime]
  obtain ⟨d4, hd4⟩ := Option.isSome_iff_exists.mp h7
  by_cases h8 : (strptimeS1Fmt t5).isSome = true
  case neg =>
    have h8n : strptimeS1Fmt t5 = none := by
      cases hgg : strptimeS1Fmt t5
      · rfl
      · rw [hgg] at h8; simp at h8
    simp_all [s1IsValid, parseS1_eq, s1Ctor, pyCheckEnum, pyIndex, pyStrptime]
  obtain ⟨d5, hd5⟩ := Option.isSome_iff_exists.mp h8
  by_cases h9 : t6.length = 6
  case neg =>
    simp_all [s1IsValid, parseS1_eq, s1Ctor, pyCheckEnum, pyIndex, pyStrptime, pyCheckLen]
  by_cases h10 : t7.length = 6
  case neg =>
    simp_all [s1IsValid, parseS1_eq, s1Ctor, pyCheckEnum, pyIndex, pyStrptime, pyCheckLen]
  by_cases h11 : t8.length = 4
  case neg =>
    simp_all [s1IsValid, parseS1_eq, s1Ctor, pyCheckEnum, pyIndex, pyStrptime, pyCheckLen]
  exfalso
  rw [List.get?_eq_getElem?] at hg2 hg30 hg31
  simp_all [s1AllChecks, s1MissionOk, s1BeamOk, s1PTypeOk, s1ResOk, s1PLevelOk,
    s1PClassOk, s1PolOk, s1DateOk]

/-- Claim C1, amended: a wrong token count fails construction with the
token-count `ValueError`; a 9-token id whose positional extractions stay in
range (`elt_prd_id[2]` has at least 4 characters and `elt_prd_id[3]` at
least 2) and in which some field fails its enum/length/date check fails with
`ValueError`, i.e. `is_valid` returns `False`; `is_valid` returns `False`
exactly when construction fails with `ValueError`; any error of another
kind (the `IndexError` of a too-short token) propagates out of
`is_valid`. -/
theorem c1_s1_malformed_handling (s : List Char) :
    ((s1Tokens s).length ≠ 9 →
      parseS1 s = .error (.valueError
        (("Sentinel 1 product id not provides the 9 keys values requested!").toList))) ∧
    ((s1Tokens s).length = 9 → s1ExtractOk (s1Tokens s) →
      s1AllChecks (s1Tokens s) = false → s1IsValid s = .ok false) ∧
    (s1IsValid s = .ok false ↔ ∃ m, parseS1 s = .error (.valueError m)) ∧
    (∀ e, parseS1 s = .error e → (∀ m, e ≠ .valueError m) → s1IsValid s = .error e) := by
  refine ⟨?_, ?_, ?_, ?_⟩
  · intro h
    rw [parseS1_eq]
    exact s1Ctor_wrong_count _ _ h
  · exact s1_checks_fail_isvalid_false s
  · cases hp : parseS1 s with
    | ok info => simp [s1IsValid, hp]
    | error e => cases e <;> simp [s1IsValid, hp]
  · intro e hp hne
    cases e <;> simp [s1IsValid, hp]
    exact hne _ rfl

/-- Witness for C1 at a 9-token id with an invalid polarisation `XX` and
in-range extractions. -/
theorem c1_witness :
    s1IsValid
      (("S1A_IW_GRDH_1SXX_20210708T060105_20210708T060130_038682_04908E_8979").toList)
      = .ok false :=
  (c1_s1_malformed_handling
      (("S1A_IW_GRDH_1SXX_20210708T060105_20210708T060130_038682_04908E_8979").toList)).2.1
    (by decide) (by decide) (by decide)

/-- `parseS2` is the constructor body applied to the stripped id and its
token list. -/
theorem parseS2_eq (s : List Char) :
    parseS2 s = s2Ctor ((splitCh '.' s).headD []) (s2Tokens s) := rfl

/-- A token list of length seven is literally a seven-element list. -/
theorem list_len_seven {α : Type} (ts : List α) (h : ts.length = 7) :
    ∃ a b c d e f g, ts = [a, b, c, d, e, f, g] := by
  rcases ts with _ | ⟨a, _ | ⟨b, _ | ⟨c, _ | ⟨d, _ | ⟨e, _ | ⟨f, _ | ⟨g,
    _ | ⟨h2, rest⟩⟩⟩⟩⟩⟩⟩⟩ <;> simp_all

/-- `S2PrdIdInfo.is_valid` returns `False` exactly when construction fails
with a `ValueError`. -/
theorem s2IsValid_false_iff (s : List Char) :
    s2IsValid s = .ok false ↔ ∃ m, parseS2 s = .error (.valueError m) := by
  cases hp : parseS2 s with
  | ok info => simp [s2IsValid, hp]
  | error e => cases e <;> simp [s2IsValid, hp]

/-- The relative-orbit setter either accepts its value or raises a
`ValueError`. -/
theorem s2CheckOrbit_shape (v : List Char) :
    (∃ w, s2CheckOrbit v = .ok w) ∨ (∃ m, s2CheckOrbit v = .error (.valueError m)) := by
  unfold s2CheckOrbit
  split
  · split
    · split
      · exact Or.inl ⟨_, rfl⟩
      · exact Or.inr ⟨_, rfl⟩
    · exact Or.inr ⟨_, rfl⟩
  · exact Or.inr ⟨_, rfl⟩

/-- With seven tokens and a tile block of at most five characters (a tile id
of at most four characters), `S2PrdIdInfo` construction raises `ValueError`,
so `is_valid` returns `False`. -/
theorem s2_tile_short_fails (s : List Char)
    (hlen : (s2Tokens s).length = 7)
    (htile : ((s2Tokens s).getD 5 []).length ≤ 5) :
    s2IsValid s = .ok false := by
  obtain ⟨t0, t1, t2, t3, t4, t5, t6, hts⟩ := list_len_seven _ hlen
  rw [hts] at htile
  simp only [List.getD_cons_zero, List.getD_cons_succ] at htile
  by_cases h0 : ([(("S2A").toList), (("S2B").toList)].contains t0) = true
  case neg =>
    simp_all [s2IsValid, parseS2_eq, s2Ctor, pyCheckEnum]
  by_cases h1 : ([(("L1C").toList), (("L2A").toList)].contains (t1.drop 3)) = true
  case neg =>
    simp_all [s2IsValid, parseS2_eq, s2Ctor, pyCheckEnum]
  by_cases h2 : (strptimeS1Fmt t2).isSome = true
  case neg =>
    have h2n : strptimeS1Fmt t2 = none := by
      cases hgg : strptimeS1Fmt t2
      · rfl
      · rw [hgg] at h2; simp at h2
    simp_all [s2IsValid, parseS2_eq, s2Ctor, pyCheckEnum, pyStrptime]
  obtain ⟨d2, hd2⟩ := Option.isSome_iff_exists.mp h2
  rcases s2CheckOrbit_shape ((t4.drop 1).take 3) with ⟨w, hw⟩ | ⟨m, hm⟩
  · have hcond : ¬ ((t5.drop 1).take 5).length = 5 := by
      simp only [List.length_take, List.length_drop]
      omega
    have hplen : pyCheckLen ((t5.drop 1).take 5) 5
        (("Length of tile id different than 5 is not possible!").toList)
        = .error (.valueError
          (("Length of tile id different than 5 is not possible!").toList)) := by
      unfold pyCheckLen
      exact if_neg hcond
    simp_all [s2IsValid, parseS2_eq, s2Ctor, pyCheckEnum, pyStrptime, hplen]
  · simp_all [s2IsValid, parseS2_eq, s2Ctor, pyCheckEnum, pyStrptime]

/-- Claim C2, amended: an S2 product id whose tile block carries a tile id
of length 4 (block of length 5) fails construction and `is_valid`; but the
tile id is extracted with the truncating slice `elt_prd_id[5][1:6]`, so a
tile block of length at least 6 — in particular a length-6 tile id —
passes the length check with its first five characters kept, and with every
other field valid the id is accepted. -/
theorem c2_s2_tile_length (s : List Char) (hlen : (s2Tokens s).length = 7) :
    (((s2Tokens s).getD 5 []).length ≤ 5 →
      s2IsValid s = .ok false ∧ ∃ m, parseS2 s = .error (.valueError m)) ∧
    (6 ≤ ((s2Tokens s).getD 5 []).length →
      s2MissionOk ((s2Tokens s).getD 0 []) = true →
      s2LevelOk ((s2Tokens s).getD 1 []) = true →
      s1DateOk ((s2Tokens s).getD 2 []) = true →
      s2OrbitOk ((s2Tokens s).getD 4 []) = true →
      s2DiscOk ((s2Tokens s).getD 6 []) = true →
      s2IsValid s = .ok true ∧
      (parseS2 s).map S2PrdIdInfo.tileId =
        .ok ((((s2Tokens s).getD 5 []).drop 1).take 5)) := by
  constructor
  · intro htile
    have hv := s2_tile_short_fails s hlen htile
    exact ⟨hv, (s2IsValid_false_iff s).mp hv⟩
  · intro htile hm hl hd ho hdisc
    obtain ⟨t0, t1, t2, t3, t4, t5, t6, hts⟩ := list_len_seven _ hlen
    rw [hts] at htile hm hl hd ho hdisc ⊢
    simp only [List.getD_cons_zero, List.getD_cons_succ] at htile hm hl hd ho hdisc ⊢
    simp only [s2MissionOk] at hm
    simp only [s2LevelOk] at hl
    simp only [s1DateOk] at hd
    simp only [s2OrbitOk] at ho
    simp only [s2DiscOk, beq_iff_eq] at hdisc
    obtain ⟨d2, hd2⟩ := Option.isSome_iff_exists.mp hd
    rcases s2CheckOrbit_shape ((t4.drop 1).take 3) with ⟨w, hw⟩ | ⟨m, hmo⟩
    · have htl : ((t5.drop 1).take 5).length = 5 := by
        simp only [List.length_take, List.length_drop]
        omega
      simp_all [s2IsValid, parseS2_eq, s2Ctor, pyCheckEnum, pyStrptime, pyCheckLen,
        Except.map]
    · rw [hmo] at ho; cases ho

/-- Witness for C2 at concrete inputs: the length-5 tile block
`T28WD` (4-character tile id) is rejected, and the length-7 tile block
`T28WDBX` (6-character tile id) is accepted. -/
theorem c2_witness :
    (s2IsValid
        (("S2B_MSIL2A_20210714T131719_N0301_R124_T28WD_20210714T160455.SAFE").toList)
      = .ok false ∧
      ∃ m, parseS2
        (("S2B_MSIL2A_20210714T131719_N0301_R124_T28WD_20210714T160455.SAFE").toList)
        = .error (.valueError m)) ∧
    s2IsValid
        (("S2B_MSIL2A_20210714T131719_N0301_R124_T28WDBX_20210714T160455.SAFE").toList)
      = .ok true :=
  ⟨(c2_s2_tile_length
      (("S2B_MSIL2A_20210714T131719_N0301_R124_T28WD_20210714T160455.SAFE").toList)
      (by decide)).1 (by decide),
   ((c2_s2_tile_length
      (("S2B_MSIL2A_20210714T131719_N0301_R124_T28WDBX_20210714T160455.SAFE").toList)
      (by decide)).2 (by decide) (by decide) (by decide) (by decide) (by decide)
      (by decide)).1⟩

/-- A key absent from every entry has no lookup result. -/
theorem lookup_none_of_forall {β : Type} {l : List (FsPath × β)} {p : FsPath}
    (h : ∀ e ∈ l, e.1 ≠ p) : l.lookup p = none := by
  induction l with
  | nil => rfl
  | cons e t ih =>
    have hbeq : (p == e.1) = false :=
      beq_eq_false_iff_ne.mpr (fun hq => h e (List.mem_cons_self e t) hq.symm)
    obtain ⟨k, v⟩ := e
    simp only [List.lookup]
    simp only at hbeq
    rw [hbeq]
    exact ih (fun x hx => h x (List.mem_cons_of_mem _ hx))

/-- `mkdir` on a fresh path under an existing parent just adds the
directory. -/
theorem mkdir_fresh (fs : Fs) (p : FsPath) (h1 : p ∉ fs.dirs)
    (h2 : fs.fileAt p = none) (h3 : fsParent p ∈ fs.dirs) :
    fs.mkdir p = ({ fs with dirs := p :: fs.dirs }, .ok ()) := by
  unfold Fs.mkdir
  rw [if_neg h1, if_neg (by simp [h2]), if_pos h3]

/-- `rmdir` on an existing empty directory removes exactly it. -/
theorem rmdir_removes (fs : Fs) (p : FsPath) (hp : p ∈ fs.dirs)
    (hnd : ∀ d ∈ fs.dirs, ¬ (p <+: d ∧ d ≠ p))
    (hnf : ∀ e ∈ fs.files, ¬ p <+: e.1) :
    fs.rmdir p = ({ fs with dirs := fs.dirs.filter (fun d => decide (d ≠ p)) }, .ok ()) := by
  unfold Fs.rmdir
  rw [if_pos hp, if_neg]
  rintro (⟨d, hd, hdp⟩ | ⟨e, he, hep⟩)
  · exact hnd d hd hdp
  · exact hnf e he hep

/-- Shared computation: `aws_to_safe` on a valid S1 id whose
`productInfo.json` sidecar is absent, against a filesystem where the target
`.SAFE` directory does not yet exist — it creates the target directory,
detects the missing sidecar, removes the target directory again and raises
`S1SafeConversionError`, leaving the filesystem exactly as it was. -/
theorem awsToSafe_sidecar_absent
    (s2conv : Fs → FsPath → FsPath → Fs × Except PyErr FsPath)
    (fs : Fs) (outDir : FsPath) (prdId : List Char)
    (hvalid : s1IsValid prdId = .ok true)
    (hsc : fs.pathExists (outDir ++ [piJson]) = false)
    (hparent : fsParent outDir ∈ fs.dirs)
    (hnodesc : ∀ d ∈ fs.dirs, ¬ (fsParent outDir ++ [safePrdIdOf prdId]) <+: d)
    (hnofile : ∀ e ∈ fs.files, ¬ (fsParent outDir ++ [safePrdIdOf prdId]) <+: e.1)
    (hne : ¬ outDir <+: (fsParent outDir ++ [safePrdIdOf prdId])) :
    awsToSafe s2conv fs outDir prdId none =
      (fs, .error (.s1SafeConversionError
        ((("No conversion file for ").toList) ++ (splitCh '.' prdId).headD []))) := by
  obtain ⟨dirs, files⟩ := fs
  set outSafe := fsParent outDir ++ [safePrdIdOf prdId] with houts
  have hofresh : outSafe ∉ dirs := fun h => hnodesc outSafe h (List.prefix_refl _)
  have hofile : Fs.fileAt ⟨dirs, files⟩ outSafe = none :=
    lookup_none_of_forall
      (fun e he heq => hnofile e he (heq ▸ List.prefix_refl _))
  have hopar : fsParent outSafe ∈ dirs := by
    rw [houts]
    unfold fsParent
    rw [List.dropLast_concat]
    exact hparent
  have hmk := mkdir_fresh ⟨dirs, files⟩ outSafe hofresh hofile hopar
  have hscne : outDir ++ [piJson] ≠ outSafe := by
    intro h
    exact hne (h ▸ List.prefix_append outDir [piJson])
  have hsc0 : decide (outDir ++ [piJson] ∈ dirs) = false ∧
      (Fs.fileAt ⟨dirs, files⟩ (outDir ++ [piJson])).isSome = false := by
    have := hsc
    unfold Fs.pathExists at this
    simpa using this
  have hsc1 : Fs.pathExists ⟨outSafe :: dirs, files⟩ (outDir ++ [piJson]) = false := by
    unfold Fs.pathExists
    simp only [Bool.or_eq_false_iff, decide_eq_false_iff_not, List.mem_cons]
    constructor
    · rintro (h | h)
      · exact hscne h
      · exact (by simpa using hsc0.1 : outDir ++ [piJson] ∉ dirs) h
    · exact hsc0.2
  have hrm := rmdir_removes ⟨outSafe :: dirs, files⟩ outSafe
    (List.mem_cons_self _ _)
    (by
      rintro d hd ⟨hpre, hdne⟩
      rcases List.mem_cons.mp hd with rfl | hd2
      · exact hdne rfl
      · exact hnodesc d hd2 hpre)
    hnofile
  have hfilter : (outSafe :: dirs).filter (fun d => decide (d ≠ outSafe)) = dirs := by
    rw [List.filter_cons_of_neg (by simp)]
    exact List.filter_eq_self.mpr
      (fun a ha => decide_eq_true
        (fun heq => hnodesc a ha (heq ▸ List.prefix_refl _)))
  rw [houts] at hmk hsc1 hrm hfilter
  unfold awsToSafe
  simp [hvalid, hmk, hsc1, hrm, hfilter]
  intro a ha heq
  exact hnodesc a ha (heq ▸ List.prefix_refl _)

/-- Claim C8: for every S1 SAFE reconstruction whose `productInfo.json`
sidecar is absent from the flat product directory (and whose target `.SAFE`
directory does not pre-exist), `aws_to_safe` raises `S1SafeConversionError`,
no file is moved, and no `.SAFE` target directory remains: the filesystem is
returned exactly as it was. -/
theorem c8_s1_sidecar_absent
    (s2conv : Fs → FsPath → FsPath → Fs × Except PyErr FsPath)
    (fs : Fs) (outDir : FsPath) (prdId : List Char)
    (hvalid : s1IsValid prdId = .ok true)
    (hsc : fs.pathExists (outDir ++ [piJson]) = false)
    (hparent : fsParent outDir ∈ fs.dirs)
    (hnodesc : ∀ d ∈ fs.dirs, ¬ (fsParent outDir ++ [safePrdIdOf prdId]) <+: d)
    (hnofile : ∀ e ∈ fs.files, ¬ (fsParent outDir ++ [safePrdIdOf prdId]) <+: e.1)
    (hne : ¬ outDir <+: (fsParent outDir ++ [safePrdIdOf prdId])) :
    awsToSafe s2conv fs outDir prdId none =
      (fs, .error (.s1SafeConversionError
        ((("No conversion file for ").toList) ++ (splitCh '.' prdId).headD []))) :=
  awsToSafe_sidecar_absent s2conv fs outDir prdId hvalid hsc hparent hnodesc hnofile hne

/-- `mkdir` never touches files. -/
theorem mkdir_files (fs : Fs) (p : FsPath) : (fs.mkdir p).1.files = fs.files := by
  unfold Fs.mkdir
  repeat' split
  all_goals rfl

/-- `mkdir` never removes a directory. -/
theorem mkdir_dirs_mono (fs : Fs) (p d : FsPath) (h : d ∈ fs.dirs) :
    d ∈ (fs.mkdir p).1.dirs := by
  unfold Fs.mkdir
  repeat' split
  all_goals simp [h]

/-- `mkdir(parents=True)` never touches files. -/
theorem mkdirParents_files (fs : Fs) (p : FsPath) :
    (fs.mkdirParents p).1.files = fs.files := by
  unfold Fs.mkdirParents
  split
  all_goals rfl

/-- `mkdir(parents=True)` never removes a directory. -/
theorem mkdirParents_dirs_mono (fs : Fs) (p d : FsPath) (h : d ∈ fs.dirs) :
    d ∈ (fs.mkdirParents p).1.dirs := by
  unfold Fs.mkdirParents
  split
  all_goals simp [h]

/-- `rename` never touches directories. -/
theorem rename_dirs (fs : Fs) (src dst : FsPath) :
    (fs.rename src dst).1.dirs = fs.dirs := by
  unfold Fs.rename
  repeat' split
  all_goals rfl

/-- Filtering an association list by a key predicate that holds at `p`
leaves the lookup at `p` unchanged. -/
theorem lookup_filter_key {β : Type} (l : List (FsPath × β)) (p : FsPath)
    (f : FsPath → Bool) (hf : f p = true) :
    (l.filter (fun e => f e.1)).lookup p = l.lookup p := by
  induction l with
  | nil => rfl
  | cons e t ih =>
    obtain ⟨k, v⟩ := e
    by_cases hk : k = p
    · subst hk
      rw [List.filter_cons_of_pos (by simpa using hf)]
      simp [List.lookup]
    · have hbeq : (p == k) = false := beq_eq_false_iff_ne.mpr (fun hq => hk hq.symm)
      by_cases hfk : f k = true
      · rw [List.filter_cons_of_pos (by simpa using hfk)]
        simp only [List.lookup, hbeq]
        exact ih
      · rw [List.filter_cons_of_neg (by simpa using hfk)]
        simp only [List.lookup, hbeq]
        exact ih

/-- A successful `rename` saw the source file and the target's parent. -/
theorem rename_ok_inv (fs : Fs) (src dst : FsPath)
    (hok : (fs.rename src dst).2 = .ok ()) :
    ∃ c, fs.fileAt src = some c ∧ fsParent dst ∈ fs.dirs := by
  unfold Fs.rename at hok
  split at hok
  · cases hok
  · rename_i c heq
    split at hok
    · rename_i hd
      exact ⟨c, heq, hd⟩
    · cases hok

/-- The outcome of a successful `rename`. -/
theorem rename_ok_eq (fs : Fs) (src dst : FsPath) (c : FileData)
    (hs : fs.fileAt src = some c) (hd : fsParent dst ∈ fs.dirs) :
    fs.rename src dst =
      ({ fs with
         files := (dst, c) :: fs.files.filter (fun e => decide (e.1 ≠ src ∧ e.1 ≠ dst)) },
       .ok ()) := by
  unfold Fs.rename
  rw [hs]
  exact if_pos hd

/-- A failed `rename` leaves the filesystem untouched. -/
theorem rename_err_fs (fs : Fs) (src dst : FsPath) {e : PyErr}
    (herr : (fs.rename src dst).2 = .error e) :
    (fs.rename src dst).1 = fs := by
  cases hs : fs.fileAt src with
  | none =>
    unfold Fs.rename
    rw [hs]
  | some c =>
    by_cases hd : fsParent dst ∈ fs.dirs
    · rw [rename_ok_eq fs src dst c hs hd] at herr
      cases herr
    · unfold Fs.rename
      rw [hs]
      exact congrArg Prod.fst (if_neg hd)

/-- A successful `rename` places the contents at the target. -/
theorem rename_fileAt_dst (fs : Fs) (src dst : FsPath)
    (hok : (fs.rename src dst).2 = .ok ()) :
    (((fs.rename src dst).1).fileAt dst).isSome = true := by
  obtain ⟨c, hs, hd⟩ := rename_ok_inv fs src dst hok
  rw [rename_ok_eq fs src dst c hs hd]
  simp [Fs.fileAt, List.lookup]

/-- A `rename` leaves every other path's contents alone. -/
theorem rename_fileAt_other (fs : Fs) (src dst p : FsPath)
    (hps : p ≠ src) (hpd : p ≠ dst) :
    ((fs.rename src dst).1).fileAt p = fs.fileAt p := by
  unfold Fs.rename
  split
  · rfl
  · split
    · rename_i c heq hd
      show List.lookup p ((dst, c) :: _) = _
      have hbeq : (p == dst) = false := beq_eq_false_iff_ne.mpr hpd
      simp only [List.lookup, hbeq]
      exact lookup_filter_key fs.files p
        (fun k => decide (k ≠ src ∧ k ≠ dst)) (by simp [hps, hpd])
    · rfl

/-- A successful `rmtree` removes the root directory and keeps every file
outside the removed subtree. -/
theorem rmtree_ok (fs : Fs) (p : FsPath) (hp : p ∈ fs.dirs) :
    (fs.rmtree p).2 = .ok () ∧
    p ∉ (fs.rmtree p).1.dirs ∧
    ∀ q, ¬ p <+: q → ((fs.rmtree p).1).fileAt q = fs.fileAt q := by
  unfold Fs.rmtree
  rw [if_pos hp]
  refine ⟨rfl, ?_, ?_⟩
  · intro hmem
    have h2 := List.of_mem_filter hmem
    simp only [Bool.not_eq_true', decide_eq_false_iff_not] at h2
    exact h2 (List.prefix_refl p)
  · intro q hq
    exact lookup_filter_key fs.files q (fun k => !decide (p <+: k)) (by simp [hq])

/-- Step equation of the move loop: failing `mkdir(parents=True)`. -/
theorem s1MoveLoop_cons_mkdirErr (od os k v : FsPath) (rest : List (FsPath × FsPath))
    (fs fs1 : Fs) {e : PyErr}
    (h1 : fs.mkdirParents (fsParent (os ++ k)) = (fs1, .error e)) :
    s1MoveLoop od os ((k, v) :: rest) fs = (fs1, .error e) := by
  unfold s1MoveLoop
  rw [h1]

/-- Step equation of the move loop: failing `rename`. -/
theorem s1MoveLoop_cons_renameErr (od os k v : FsPath) (rest : List (FsPath × FsPath))
    (fs fs1 fs2 : Fs) {e : PyErr}
    (h1 : fs.mkdirParents (fsParent (os ++ k)) = (fs1, .ok ()))
    (h2 : fs1.rename (od ++ v) (os ++ k) = (fs2, .error e)) :
    s1MoveLoop od os ((k, v) :: rest) fs = (fs2, .error e) := by
  unfold s1MoveLoop
  rw [h1]
  dsimp only
  rw [h2]

/-- Step equation of the move loop: one successful move. -/
theorem s1MoveLoop_cons_ok (od os k v : FsPath) (rest : List (FsPath × FsPath))
    (fs fs1 fs2 : Fs)
    (h1 : fs.mkdirParents (fsParent (os ++ k)) = (fs1, .ok ()))
    (h2 : fs1.rename (od ++ v) (os ++ k) = (fs2, .ok ())) :
    s1MoveLoop od os ((k, v) :: rest) fs = s1MoveLoop od os rest fs2 := by
  have hl : s1MoveLoop od os ((k, v) :: rest) fs =
      match fs.mkdirParents (fsParent (os ++ k)) with
      | (fs1, .error e) => (fs1, .error e)
      | (fs1, .ok ()) =>
        match fs1.rename (od ++ v) (os ++ k) with
        | (fs2, .error e) => (fs2, .error e)
        | (fs2, .ok ()) => s1MoveLoop od os rest fs2 := rfl
  rw [hl, h1]
  dsimp only
  rw [h2]

/-- The move loop of `aws_s1_to_safe` never removes a directory. -/
theorem s1MoveLoop_dirs_mono (od os : FsPath) :
    ∀ (m : List (FsPath × FsPath)) (fs : Fs) (d : FsPath),
      d ∈ fs.dirs → d ∈ (s1MoveLoop od os m fs).1.dirs := by
  intro m
  induction m with
  | nil => intro fs d h; exact h
  | cons e rest ih =>
    intro fs d h
    obtain ⟨k, v⟩ := e
    have h1 : d ∈ (fs.mkdirParents (fsParent (os ++ k))).1.dirs :=
      mkdirParents_dirs_mono fs _ d h
    rcases hmk : fs.mkdirParents (fsParent (os ++ k)) with ⟨fs1, r1⟩
    rw [hmk] at h1
    cases r1 with
    | error e1 => rw [s1MoveLoop_cons_mkdirErr od os k v rest fs fs1 hmk]; exact h1
    | ok u =>
      cases u
      have h2 : d ∈ (fs1.rename (od ++ v) (os ++ k)).1.dirs := by
        rw [rename_dirs]; exact h1
      rcases hrn : fs1.rename (od ++ v) (os ++ k) with ⟨fs2, r2⟩
      rw [hrn] at h2
      cases r2 with
      | error e2 =>
        rw [s1MoveLoop_cons_renameErr od os k v rest fs fs1 fs2 hmk hrn]
        exact h2
      | ok u2 =>
        cases u2
        rw [s1MoveLoop_cons_ok od os k v rest fs fs1 fs2 hmk hrn]
        exact ih fs2 d h2

/-- The move loop only removes files that some remaining entry moves out of
the flat directory. -/
theorem s1MoveLoop_keeps_file (od os : FsPath) :
    ∀ (m : List (FsPath × FsPath)) (fs : Fs) (p : FsPath),
      ((fs.fileAt p).isSome = true) →
      (∀ e ∈ m, p ≠ od ++ e.2) →
      (((s1MoveLoop od os m fs).1).fileAt p).isSome = true := by
  intro m
  induction m with
  | nil => intro fs p h _; exact h
  | cons e rest ih =>
    intro fs p h hne
    obtain ⟨k, v⟩ := e
    have hsrc : p ≠ od ++ v := hne (k, v) (List.mem_cons_self _ _)
    have h1 : (((fs.mkdirParents (fsParent (os ++ k))).1).fileAt p).isSome = true := by
      unfold Fs.fileAt
      rw [mkdirParents_files]
      exact h
    rcases hmk : fs.mkdirParents (fsParent (os ++ k)) with ⟨fs1, r1⟩
    rw [hmk] at h1
    cases r1 with
    | error e1 => rw [s1MoveLoop_cons_mkdirErr od os k v rest fs fs1 hmk]; exact h1
    | ok u =>
      cases u
      have h2 : (((fs1.rename (od ++ v) (os ++ k)).1).fileAt p).isSome = true := by
        by_cases hpd : p = os ++ k
        · subst hpd
          cases hr2 : (fs1.rename (od ++ v) (os ++ k)).2 with
          | error e2 =>
            rw [rename_err_fs _ _ _ hr2]
            exact h1
          | ok u2 =>
            cases u2
            exact rename_fileAt_dst _ _ _ hr2
        · rw [rename_fileAt_other _ _ _ _ hsrc hpd]
          exact h1
      rcases hrn : fs1.rename (od ++ v) (os ++ k) with ⟨fs2, r2⟩
      rw [hrn] at h2
      cases r2 with
      | error e2 =>
        rw [s1MoveLoop_cons_renameErr od os k v rest fs fs1 fs2 hmk hrn]
        exact h2
      | ok u2 =>
        cases u2
        rw [s1MoveLoop_cons_ok od os k v rest fs fs1 fs2 hmk hrn]
        exact ih fs2 p h2 (fun x hx => hne x (List.mem_cons_of_mem _ hx))

/-- A successful move loop has placed every map target in the SAFE tree. -/
theorem s1MoveLoop_ok_targets (od os : FsPath) :
    ∀ (m : List (FsPath × FsPath)) (fs : Fs),
      (s1MoveLoop od os m fs).2 = .ok () →
      (∀ e ∈ m, ¬ od <+: (os ++ e.1)) →
      ∀ e ∈ m, (((s1MoveLoop od os m fs).1).fileAt (os ++ e.1)).isSome = true := by
  intro m
  induction m with
  | nil => intro fs _ _ e he; cases he
  | cons e0 rest ih =>
    intro fs hok hdj e he
    obtain ⟨k, v⟩ := e0
    rcases hmk : fs.mkdirParents (fsParent (os ++ k)) with ⟨fs1, r1⟩
    cases r1 with
    | error e1 =>
      rw [s1MoveLoop_cons_mkdirErr od os k v rest fs fs1 hmk] at hok
      cases hok
    | ok u =>
      cases u
      rcases hrn : fs1.rename (od ++ v) (os ++ k) with ⟨fs2, r2⟩
      cases r2 with
      | error e2 =>
        rw [s1MoveLoop_cons_renameErr od os k v rest fs fs1 fs2 hmk hrn] at hok
        cases hok
      | ok u2 =>
        cases u2
        rw [s1MoveLoop_cons_ok od os k v rest fs fs1 fs2 hmk hrn] at hok ⊢
        rcases List.mem_cons.mp he with heq0 | he2
        · have hsubst : os ++ e.1 = os ++ k := by rw [heq0]
          rw [hsubst]
          have hd1 : ((fs2 : Fs).fileAt (os ++ k)).isSome = true := by
            have := rename_fileAt_dst fs1 (od ++ v) (os ++ k) (by rw [hrn])
            rw [hrn] at this
            exact this
          refine s1MoveLoop_keeps_file od os rest fs2 (os ++ k) hd1 ?_
          intro x hx hqe
          refine hdj (k, v) (List.mem_cons_self _ _) ?_
          show od <+: os ++ k
          exact hqe ▸ List.prefix_append od x.2
        · exact ih fs2 hok (fun x hx => hdj x (List.mem_cons_of_mem _ hx)) e he2

/-- A failed `rmdir` leaves the filesystem untouched. -/
theorem rmdir_err_fs (fs : Fs) (p : FsPath) {e : PyErr}
    (herr : (fs.rmdir p).2 = .error e) : (fs.rmdir p).1 = fs := by
  unfold Fs.rmdir at herr ⊢
  by_cases h1 : p ∈ fs.dirs
  · rw [if_pos h1] at herr ⊢
    by_cases h2 : (∃ d ∈ fs.dirs, p <+: d ∧ d ≠ p) ∨ (∃ e ∈ fs.files, p <+: e.1)
    · rw [if_pos h2]
    · rw [if_neg h2] at herr
      cases herr
  · rw [if_neg h1]

/-- A successful `rmdir` removed exactly the directory. -/
theorem rmdir_ok_eq (fs : Fs) (p : FsPath)
    (hok : (fs.rmdir p).2 = .ok ()) :
    (fs.rmdir p).1 = { fs with dirs := fs.dirs.filter (fun d => decide (d ≠ p)) } := by
  unfold Fs.rmdir at hok ⊢
  by_cases h1 : p ∈ fs.dirs
  · rw [if_pos h1] at hok ⊢
    by_cases h2 : (∃ d ∈ fs.dirs, p <+: d ∧ d ≠ p) ∨ (∃ e ∈ fs.files, p <+: e.1)
    · rw [if_pos h2] at hok
      cases hok
    · rw [if_neg h2]
  · rw [if_neg h1] at hok
    cases hok

/-- A failed `rmtree` leaves the filesystem untouched. -/
theorem rmtree_err_fs (fs : Fs) (p : FsPath) {e : PyErr}
    (herr : (fs.rmtree p).2 = .error e) : (fs.rmtree p).1 = fs := by
  unfold Fs.rmtree at herr ⊢
  split at herr
  · cases herr
  · rename_i h1
    rw [if_neg h1]

/-- A successful `rmtree` started from an existing directory. -/
theorem rmtree_ok_inv (fs : Fs) (p : FsPath)
    (hok : (fs.rmtree p).2 = .ok ()) : p ∈ fs.dirs := by
  unfold Fs.rmtree at hok
  split at hok
  · assumption
  · cases hok

/-- `aws_s1_to_safe` never removes a directory. -/
theorem awsS1ToSafe_dirs_mono (fs : Fs) (od os d : FsPath) (h : d ∈ fs.dirs) :
    d ∈ (awsS1ToSafe fs od os).1.dirs := by
  unfold awsS1ToSafe
  split
  · exact h
  · rename_i m heq
    have h1 := s1MoveLoop_dirs_mono od os m fs d h
    split
    · rename_i fs1 e1 heq2
      rw [heq2] at h1
      exact h1
    · rename_i fs1 heq2
      rw [heq2] at h1
      exact h1

/-- Inversion of a successful `aws_s1_to_safe`: the sidecar was read and the
whole move loop succeeded. -/
theorem awsS1ToSafe_ok_inv (fs : Fs) (od os : FsPath) (fs1 : Fs) (sp : FsPath)
    (h : awsS1ToSafe fs od os = (fs1, .ok sp)) :
    ∃ mp, fs.readJson (od ++ [piJson]) = .ok mp ∧
      s1MoveLoop od os mp fs = (fs1, .ok ()) ∧ sp = os := by
  unfold awsS1ToSafe at h
  split at h
  · cases h
  · rename_i m heq
    split at h
    · cases h
    · rename_i fsm heq2
      injection h with h1 h2
      injection h2 with h2
      exact ⟨m, heq, by rw [heq2, h1], h2.symm⟩

/-- Step equation of `aws_to_safe`: failing target `mkdir`. -/
theorem awsToSafe_step_mkdirErr
    (s2conv : Fs → FsPath → FsPath → Fs × Except PyErr FsPath)
    (fs : Fs) (outDir : FsPath) (prdId : List Char) (fs0 : Fs) {e : PyErr}
    (hmk : fs.mkdir (fsParent outDir ++ [safePrdIdOf prdId]) = (fs0, .error e)) :
    awsToSafe s2conv fs outDir prdId none = (fs0, .error e) := by
  unfold awsToSafe
  dsimp only
  rw [hmk]

/-- Step equation of `aws_to_safe` on the valid-S1, sidecar-present path:
failing `aws_s1_to_safe`. -/
theorem awsToSafe_step_s1Err
    (s2conv : Fs → FsPath → FsPath → Fs × Except PyErr FsPath)
    (fs : Fs) (outDir : FsPath) (prdId : List Char) (fs0 fs1 : Fs) {e : PyErr}
    (hmk : fs.mkdir (fsParent outDir ++ [safePrdIdOf prdId]) = (fs0, .ok ()))
    (hvalid : s1IsValid prdId = .ok true)
    (hpe : fs0.pathExists (outDir ++ [piJson]) = true)
    (hs1 : awsS1ToSafe fs0 outDir (fsParent outDir ++ [safePrdIdOf prdId])
      = (fs1, .error e)) :
    awsToSafe s2conv fs outDir prdId none = (fs1, .error e) := by
  unfold awsToSafe
  dsimp only
  rw [hmk]
  dsimp only
  rw [hvalid]
  dsimp only
  rw [if_pos hpe, hs1]

/-- Step equation of `aws_to_safe` on the valid-S1, sidecar-present path:
conversion succeeded but the final `rmtree` failed. -/
theorem awsToSafe_step_rmtreeErr
    (s2conv : Fs → FsPath → FsPath → Fs × Except PyErr FsPath)
    (fs : Fs) (outDir : FsPath) (prdId : List Char) (fs0 fs1 fs2 : Fs)
    (sp : FsPath) {e : PyErr}
    (hmk : fs.mkdir (fsParent outDir ++ [safePrdIdOf prdId]) = (fs0, .ok ()))
    (hvalid : s1IsValid prdId = .ok true)
    (hpe : fs0.pathExists (outDir ++ [piJson]) = true)
    (hs1 : awsS1ToSafe fs0 outDir (fsParent outDir ++ [safePrdIdOf prdId])
      = (fs1, .ok sp))
    (hrt : fs1.rmtree outDir = (fs2, .error e)) :
    awsToSafe s2conv fs outDir prdId none = (fs2, .error e) := by
  unfold awsToSafe
  dsimp only
  rw [hmk]
  dsimp only
  rw [hvalid]
  dsimp only
  rw [if_pos hpe, hs1]
  dsimp only
  rw [hrt]

/-- Step equation of `aws_to_safe` on the valid-S1, sidecar-present path:
full success. -/
theorem awsToSafe_step_ok
    (s2conv : Fs → FsPath → FsPath → Fs × Except PyErr FsPath)
    (fs : Fs) (outDir : FsPath) (prdId : List Char) (fs0 fs1 fs2 : Fs)
    (sp : FsPath)
    (hmk : fs.mkdir (fsParent outDir ++ [safePrdIdOf prdId]) = (fs0, .ok ()))
    (hvalid : s1IsValid prdId = .ok true)
    (hpe : fs0.pathExists (outDir ++ [piJson]) = true)
    (hs1 : awsS1ToSafe fs0 outDir (fsParent outDir ++ [safePrdIdOf prdId])
      = (fs1, .ok sp))
    (hrt : fs1.rmtree outDir = (fs2, .ok ())) :
    awsToSafe s2conv fs outDir prdId none = (fs2, .ok sp) := by
  unfold awsToSafe
  dsimp only
  rw [hmk]
  dsimp only
  rw [hvalid]
  dsimp only
  rw [if_pos hpe, hs1]
  dsimp only
  rw [hrt]

/-- Step equation of `aws_to_safe` on the valid-S1, sidecar-absent path:
failing `rmdir` of the target. -/
theorem awsToSafe_step_rmdirErr
    (s2conv : Fs → FsPath → FsPath → Fs × Except PyErr FsPath)
    (fs : Fs) (outDir : FsPath) (prdId : List Char) (fs0 fs1 : Fs) {e : PyErr}
    (hmk : fs.mkdir (fsParent outDir ++ [safePrdIdOf prdId]) = (fs0, .ok ()))
    (hvalid : s1IsValid prdId = .ok true)
    (hpe : fs0.pathExists (outDir ++ [piJson]) = false)
    (hrd : fs0.rmdir (fsParent outDir ++ [safePrdIdOf prdId]) = (fs1, .error e)) :
    awsToSafe s2conv fs outDir prdId none = (fs1, .error e) := by
  unfold awsToSafe
  dsimp only
  rw [hmk]
  dsimp only
  rw [hvalid]
  dsimp only
  rw [if_neg (by simp [hpe]), hrd]

/-- Step equation of `aws_to_safe` on the valid-S1, sidecar-absent path:
target removed, conversion error raised. -/
theorem awsToSafe_step_noSidecar
    (s2conv : Fs → FsPath → FsPath → Fs × Except PyErr FsPath)
    (fs : Fs) (outDir : FsPath) (prdId : List Char) (fs0 fs1 : Fs)
    (hmk : fs.mkdir (fsParent outDir ++ [safePrdIdOf prdId]) = (fs0, .ok ()))
    (hvalid : s1IsValid prdId = .ok true)
    (hpe : fs0.pathExists (outDir ++ [piJson]) = false)
    (hrd : fs0.rmdir (fsParent outDir ++ [safePrdIdOf prdId]) = (fs1, .ok ())) :
    awsToSafe s2conv fs outDir prdId none =
      (fs1, .error (.s1SafeConversionError
        (("No conversion file for ".toList) ++ (splitCh '.' prdId).headD []))) := by
  unfold awsToSafe
  dsimp only
  rw [hmk]
  dsimp only
  rw [hvalid]
  dsimp only
  rw [if_neg (by simp [hpe]), hrd]

/-- Witness for C8 at the concrete sidecar-absent fixture. -/
theorem c8_witness :
    awsToSafe s2ConvUnused exFs exOutDir exS1Id none =
      (exFs, .error (.s1SafeConversionError
        ((("No conversion file for ").toList) ++ (splitCh '.' exS1Id).headD []))) :=
  c8_s1_sidecar_absent s2ConvUnused exFs exOutDir exS1Id (by decide) (by decide)
    (by decide) (by decide) (by decide) (by decide)

/-- Claim C7, counterexample: for an S1 product whose sidecar is absent,
the `safe_format` block of `AWSS1Bucket.download_prd` deletes the whole flat
source directory (`shutil.rmtree(out_dirpath)`) after the conversion error —
the flat source is *not* left untouched for retry, contradicting the claimed
rollback postcondition. -/
theorem c7_counterexample_flat_deleted_on_failure :
    exOutDir ∈ exFs.dirs ∧
    (downloadPrdSafeStep s2ConvUnused exFs exOutDir exS1Id).2
      = .error (.awsDownloadError (.s1SafeConversionError
        (("No conversion file for ".toList) ++ exS1Id))) ∧
    exOutDir ∉ (downloadPrdSafeStep s2ConvUnused exFs exOutDir exS1Id).1.dirs ∧
    (downloadPrdSafeStep s2ConvUnused exFs exOutDir exS1Id).1.files = [] := by
  decide

/-- Claim C7, amended: (1) on success the flat source directory is deleted
only after the SAFE tree is completely built — every `filenameMap` target
exists in the final filesystem and the flat directory is gone; (2) on any
failure inside `aws_to_safe` on the S1 path the flat directory itself is
never deleted (though moved files may already have left it); but (3) when
the sidecar is absent, the `safe_format` block of `AWSS1Bucket.download_prd`
catches `S1SafeConversionError` and deletes the entire flat source directory
with `shutil.rmtree`, raising `AWSDownloadError` — the flat source is not
preserved for retry. -/
theorem c7_safe_rollback_amended :
    (∀ (s2conv : Fs → FsPath → FsPath → Fs × Except PyErr FsPath)
       (fs : Fs) (outDir : FsPath) (prdId : List Char) (sp : FsPath)
       (mp : List (FsPath × FsPath)),
      s1IsValid prdId = .ok true →
      fs.fileAt (outDir ++ [piJson]) = some (.json mp) →
      (∀ e ∈ mp, ¬ outDir <+: ((fsParent outDir ++ [safePrdIdOf prdId]) ++ e.1)) →
      (awsToSafe s2conv fs outDir prdId none).2 = .ok sp →
      outDir ∉ (awsToSafe s2conv fs outDir prdId none).1.dirs ∧
      ∀ e ∈ mp, (((awsToSafe s2conv fs outDir prdId none).1).fileAt
        ((fsParent outDir ++ [safePrdIdOf prdId]) ++ e.1)).isSome = true) ∧
    (∀ (s2conv : Fs → FsPath → FsPath → Fs × Except PyErr FsPath)
       (fs : Fs) (outDir : FsPath) (prdId : List Char) (e : PyErr),
      s1IsValid prdId = .ok true →
      outDir ≠ fsParent outDir ++ [safePrdIdOf prdId] →
      (awsToSafe s2conv fs outDir prdId none).2 = .error e →
      outDir ∈ fs.dirs →
      outDir ∈ (awsToSafe s2conv fs outDir prdId none).1.dirs) ∧
    (∀ (s2conv : Fs → FsPath → FsPath → Fs × Except PyErr FsPath)
       (fs : Fs) (outDir : FsPath) (prdId : List Char),
      s1IsValid prdId = .ok true →
      fs.pathExists (outDir ++ [piJson]) = false →
      fsParent outDir ∈ fs.dirs →
      (∀ d ∈ fs.dirs, ¬ (fsParent outDir ++ [safePrdIdOf prdId]) <+: d) →
      (∀ e ∈ fs.files, ¬ (fsParent outDir ++ [safePrdIdOf prdId]) <+: e.1) →
      (¬ outDir <+: (fsParent outDir ++ [safePrdIdOf prdId])) →
      outDir ∈ fs.dirs →
      (downloadPrdSafeStep s2conv fs outDir prdId).2
        = .error (.awsDownloadError (.s1SafeConversionError
          (("No conversion file for ".toList) ++ (splitCh '.' prdId).headD []))) ∧
      outDir ∉ (downloadPrdSafeStep s2conv fs outDir prdId).1.dirs) := by
  refine ⟨?_, ?_, ?_⟩
  · -- (1) success: flat directory deleted, SAFE tree complete
    intro s2conv fs outDir prdId sp mp hvalid hjson htargets hok
    rcases hmk : fs.mkdir (fsParent outDir ++ [safePrdIdOf prdId]) with ⟨fs0, r0⟩
    cases r0 with
    | error e0 =>
      rw [awsToSafe_step_mkdirErr s2conv fs outDir prdId fs0 hmk] at hok
      cases hok
    | ok u0 =>
      cases u0
      have hfiles : fs0.files = fs.files := by
        have h2 := mkdir_files fs (fsParent outDir ++ [safePrdIdOf prdId])
        rw [hmk] at h2
        exact h2
      have hjson0 : fs0.fileAt (outDir ++ [piJson]) = some (.json mp) := by
        unfold Fs.fileAt at hjson ⊢
        rw [hfiles]
        exact hjson
      have hpe : fs0.pathExists (outDir ++ [piJson]) = true := by
        unfold Fs.pathExists
        rw [hjson0]
        simp
      rcases hs1 : awsS1ToSafe fs0 outDir (fsParent outDir ++ [safePrdIdOf prdId])
          with ⟨fs1, r1⟩
      cases r1 with
      | error e1 =>
        rw [awsToSafe_step_s1Err s2conv fs outDir prdId fs0 fs1 hmk hvalid hpe hs1]
          at hok
        cases hok
      | ok sp1 =>
        rcases hrt : fs1.rmtree outDir with ⟨fs2, r2⟩
        cases r2 with
        | error e2 =>
          rw [awsToSafe_step_rmtreeErr s2conv fs outDir prdId fs0 fs1 fs2 sp1
            hmk hvalid hpe hs1 hrt] at hok
          cases hok
        | ok u2 =>
          cases u2
          have hres := awsToSafe_step_ok s2conv fs outDir prdId fs0 fs1 fs2 sp1
            hmk hvalid hpe hs1 hrt
          rw [hres]
          obtain ⟨mp2, hrj, hml, hsp⟩ := awsS1ToSafe_ok_inv fs0 outDir
            (fsParent outDir ++ [safePrdIdOf prdId]) fs1 sp1 hs1
          have hmp : mp2 = mp := by
            unfold Fs.readJson at hrj
            rw [hjson0] at hrj
            injection hrj with h3
            exact h3.symm
          subst hmp
          have hmem1 : outDir ∈ fs1.dirs := by
            have h4 := rmtree_ok_inv fs1 outDir (by rw [hrt])
            exact h4
          obtain ⟨-, hnot, hkeep⟩ := rmtree_ok fs1 outDir hmem1
          rw [hrt] at hnot hkeep
          refine ⟨hnot, ?_⟩
          intro e he
          have htg := s1MoveLoop_ok_targets outDir
            (fsParent outDir ++ [safePrdIdOf prdId]) mp2 fs0
            (by rw [hml]) htargets e he
          rw [hml] at htg
          rw [hkeep _ (htargets e he)]
          exact htg
  · -- (2) failure inside aws_to_safe: flat directory never deleted
    intro s2conv fs outDir prdId e hvalid hne herr hmem
    rcases hmk : fs.mkdir (fsParent outDir ++ [safePrdIdOf prdId]) with ⟨fs0, r0⟩
    have hmem0 : outDir ∈ fs0.dirs := by
      have h2 := mkdir_dirs_mono fs (fsParent outDir ++ [safePrdIdOf prdId])
        outDir hmem
      rw [hmk] at h2
      exact h2
    cases r0 with
    | error e0 =>
      rw [awsToSafe_step_mkdirErr s2conv fs outDir prdId fs0 hmk]
      have h2 := mkdir_dirs_mono fs (fsParent outDir ++ [safePrdIdOf prdId])
        outDir hmem
      rw [hmk] at h2
      exact h2
    | ok u0 =>
      cases u0
      cases hpe : fs0.pathExists (outDir ++ [piJson]) with
      | true =>
        rcases hs1 : awsS1ToSafe fs0 outDir (fsParent outDir ++ [safePrdIdOf prdId])
            with ⟨fs1, r1⟩
        have hmem1 : outDir ∈ fs1.dirs := by
          have h2 := awsS1ToSafe_dirs_mono fs0 outDir
            (fsParent outDir ++ [safePrdIdOf prdId]) outDir hmem0
          rw [hs1] at h2
          exact h2
        cases r1 with
        | error e1 =>
          rw [awsToSafe_step_s1Err s2conv fs outDir prdId fs0 fs1 hmk hvalid hpe hs1]
          exact hmem1
        | ok sp1 =>
          rcases hrt : fs1.rmtree outDir with ⟨fs2, r2⟩
          cases r2 with
          | error e2 =>
            rw [awsToSafe_step_rmtreeErr s2conv fs outDir prdId fs0 fs1 fs2 sp1
              hmk hvalid hpe hs1 hrt]
            have herr2 : (fs1.rmtree outDir).2 = .error e2 := by rw [hrt]
            have h2 := rmtree_err_fs fs1 outDir herr2
            rw [hrt] at h2
            rw [h2]
            exact hmem1
          | ok u2 =>
            cases u2
            rw [awsToSafe_step_ok s2conv fs outDir prdId fs0 fs1 fs2 sp1
              hmk hvalid hpe hs1 hrt] at herr
            cases herr
      | false =>
        rcases hrd : fs0.rmdir (fsParent outDir ++ [safePrdIdOf prdId])
            with ⟨fs1, r1⟩
        cases r1 with
        | error e1 =>
          rw [awsToSafe_step_rmdirErr s2conv fs outDir prdId fs0 fs1 hmk hvalid
            hpe hrd]
          have herr1 : (fs0.rmdir (fsParent outDir ++ [safePrdIdOf prdId])).2
              = .error e1 := by rw [hrd]
          have h2 := rmdir_err_fs fs0 (fsParent outDir ++ [safePrdIdOf prdId]) herr1
          rw [hrd] at h2
          rw [h2]
          exact hmem0
        | ok u1 =>
          cases u1
          rw [awsToSafe_step_noSidecar s2conv fs outDir prdId fs0 fs1 hmk hvalid
            hpe hrd]
          have h2 := rmdir_ok_eq fs0 (fsParent outDir ++ [safePrdIdOf prdId])
            (by rw [hrd])
          rw [hrd] at h2
          rw [h2]
          exact List.mem_filter.mpr ⟨hmem0, decide_eq_true hne⟩
  · -- (3) sidecar absent: the wrapper deletes the flat source directory
    intro s2conv fs outDir prdId hvalid hsc hparent hnodesc hnofile hne hmem
    have hstep := awsToSafe_sidecar_absent s2conv fs outDir prdId hvalid hsc
      hparent hnodesc hnofile hne
    obtain ⟨hok2, hnot, -⟩ := rmtree_ok fs outDir hmem
    rcases hrt : fs.rmtree outDir with ⟨fs2, r2⟩
    rw [hrt] at hok2 hnot
    have hdl : downloadPrdSafeStep s2conv fs outDir prdId =
        (fs2, .error (.awsDownloadError (.s1SafeConversionError
          (("No conversion file for ".toList) ++ (splitCh '.' prdId).headD [])))) := by
      unfold downloadPrdSafeStep
      rw [hstep]
      dsimp only
      rw [hrt]
      cases hok3 : r2 with
      | error e3 => rw [hok3] at hok2; cases hok2
      | ok u3 => cases u3; rfl
    rw [hdl]
    exact ⟨rfl, hnot⟩

/-- Witness for C7: part (3) applied at the concrete sidecar-absent fixture,
and part (2) applied at a concrete `aws_to_safe` failure. -/
theorem c7_witness :
    ((downloadPrdSafeStep s2ConvUnused exFs exOutDir exS1Id).2
        = .error (.awsDownloadError (.s1SafeConversionError
          (("No conversion file for ".toList) ++ (splitCh '.' exS1Id).headD []))) ∧
      exOutDir ∉ (downloadPrdSafeStep s2ConvUnused exFs exOutDir exS1Id).1.dirs) ∧
    exOutDir ∉ (awsToSafe s2ConvUnused exFsOk exOutDir exS1Id none).1.dirs :=
  ⟨c7_safe_rollback_amended.2.2 s2ConvUnused exFs exOutDir exS1Id
      (by decide) (by decide) (by decide) (by decide) (by decide) (by decide)
      (by decide),
   (c7_safe_rollback_amended.1 s2ConvUnused exFsOk exOutDir exS1Id
      (fsParent exOutDir ++ [safePrdIdOf exS1Id]) exMap
      (by decide) (by decide) (by decide) (by decide)).1⟩

end EwocDag
